import Mathlib

/-!
Verification of the Video Metadata & Transcript Acquisition Pipeline.

Shallow embedding of the TypeScript sources:
  * `services/youtubeService.ts` (identifier resolver, metadata fetcher,
    channel discovery, transcript provider router, Supadata poll loop),
  * the orchestrator's transcript phase and ranking transform in
    `tools/YouTubeScraper.tsx`.

Network I/O is modelled by oracles (functions supplying the HTTP responses);
promise rejection / thrown exceptions are modelled with `Except String`;
JavaScript strings are modelled by `String`, JSON values by `JValue`.
-/

/-! ## JavaScript string primitives -/

/-- ASCII approximation of the JS `\s` class / `String.prototype.trim`
whitespace (the source only ever feeds it URLs and API text). -/
def isJsWs (c : Char) : Bool :=
  c = ' ' ∨ c = '\t' ∨ c = '\n' ∨ c = '\r' ∨ c = '\x0b' ∨ c = '\x0c'

/-- Drop trailing whitespace. -/
def trimCharsEnd (l : List Char) : List Char :=
  (l.reverse.dropWhile isJsWs).reverse

/-- Model of `String.prototype.trim()`. -/
def jsTrim (s : String) : String :=
  String.mk (trimCharsEnd (s.data.dropWhile isJsWs))

/-- Boolean prefix test on char lists (used to model `String.prototype.startsWith`). -/
def listHasPfx : List Char → List Char → Bool
  | [], _ => true
  | _ :: _, [] => false
  | p :: ps, c :: cs => p = c ∧ listHasPfx ps cs

/-- Model of `s.startsWith(p)`. -/
def strHasPrefix (p s : String) : Bool := listHasPfx p.data s.data

/-- Characters matched by the regex class `[\w-]` (`\w` is ASCII). -/
def isWordChar (c : Char) : Bool := c.isAlphanum ∨ c = '_' ∨ c = '-'

/-! ## Model of `parseInt(s) || 0` (decimal or `0x` hex, leading garbage-free
digits, `NaN` collapsed to `0` by the `||`). -/

def decDigitsVal (l : List Char) : Nat :=
  l.foldl (fun a c => a * 10 + (c.toNat - '0'.toNat)) 0

def hexDigitVal (c : Char) : Nat :=
  if c.isDigit then c.toNat - '0'.toNat
  else if 'a' ≤ c ∧ c ≤ 'f' then c.toNat - 'a'.toNat + 10
  else c.toNat - 'A'.toNat + 10

def isHexDigitChar (c : Char) : Bool :=
  c.isDigit ∨ ('a' ≤ c ∧ c ≤ 'f') ∨ ('A' ≤ c ∧ c ≤ 'F')

def hexDigitsVal (l : List Char) : Nat :=
  l.foldl (fun a c => a * 16 + hexDigitVal c) 0

/-- Leading-digit-run magnitude, `none` when no digit (JS `NaN`). -/
def parseMagnitude (l : List Char) : Option Nat :=
  match l with
  | '0' :: 'x' :: rest =>
    let ds := rest.takeWhile isHexDigitChar
    if ds = [] then none else some (hexDigitsVal ds)
  | '0' :: 'X' :: rest =>
    let ds := rest.takeWhile isHexDigitChar
    if ds = [] then none else some (hexDigitsVal ds)
  | _ =>
    let ds := l.takeWhile Char.isDigit
    if ds = [] then none else some (decDigitsVal ds)

/-- Model of `parseInt(s) || 0` as used for the metric counters. -/
def parseIntOr0 (s : String) : Int :=
  match s.data.dropWhile isJsWs with
  | '-' :: rest => -(((parseMagnitude rest).getD 0 : Nat) : Int)
  | '+' :: rest => ((parseMagnitude rest).getD 0 : Nat)
  | l => ((parseMagnitude l).getD 0 : Nat)

/-! ## `parseDurationToSeconds` (youtubeService.ts lines 8-17)

`duration.match(/PT(\d+H)?(\d+M)?(\d+S)?/)`: the regex matches at the leftmost
occurrence of the literal `PT`; each optional group greedily takes a digit run
followed by its unit letter (a digit run not followed by the letter backtracks
to the empty group, because the letter is not a digit); `parseInt` of a group
text like `"12H"` is its digit value. No `PT` at all parses to `0`. -/

/-- Rest of the input after the leftmost `PT`, if any. -/
def findPT : List Char → Option (List Char)
  | 'P' :: 'T' :: rest => some rest
  | _ :: rest => findPT rest
  | [] => none

/-- One optional component `(\d+X)?`: value of the digit run when it is
immediately followed by the unit char, and the remaining input. -/
def durComponent (unit : Char) (l : List Char) : Nat × List Char :=
  let ds := l.takeWhile Char.isDigit
  if ds ≠ [] ∧ (l.drop ds.length).headD ' ' = unit then
    (decDigitsVal ds, l.drop (ds.length + 1))
  else (0, l)

def parseDurationToSeconds (duration : String) : Nat :=
  match findPT duration.data with
  | none => 0
  | some rest =>
    let h := durComponent 'H' rest
    let m := durComponent 'M' h.2
    let s := durComponent 'S' m.2
    h.1 * 3600 + m.1 * 60 + s.1

/-! ## `extractVideoId` (youtubeService.ts lines 20-39)

The main regex
`(?:https?:\/\/)?(?:www\.|m\.)?(?:youtube\.com\/(?:shorts\/|watch\?v=|embed\/|v\/|live\/)|youtu\.be\/)([\w-]{11})`
is unanchored: JS tries each start position left to right, and at a fixed
position tries the optional prefixes in alternation order with backtracking.
`matchLit` consumes a literal, `takeToken` the 11-char `[\w-]{11}` capture. -/

/-- Consume a literal string, returning the rest of the input. -/
def matchLit : List Char → List Char → Option (List Char)
  | [], l => some l
  | _ :: _, [] => none
  | p :: ps, c :: cs => if p = c then matchLit ps cs else none

/-- Consume exactly `n` `[\w-]` characters, returning capture and rest. -/
def takeToken : Nat → List Char → Option (List Char × List Char)
  | 0, l => some ([], l)
  | _ + 1, [] => none
  | n + 1, c :: cs =>
    if isWordChar c then
      match takeToken n cs with
      | some (t, r) => some (c :: t, r)
      | none => none
    else none

/-- The capture after a successful core match, as a `String`. -/
def token11 (l : List Char) : Option String :=
  match takeToken 11 l with
  | some (t, _) => some (String.mk t)
  | none => none

/-- `youtube.com/(shorts/|watch?v=|embed/|v/|live/)` then the capture. -/
def matchYtPath (l : List Char) : Option String :=
  match matchLit "shorts/".data l with
  | some r => token11 r
  | none =>
  match matchLit "watch?v=".data l with
  | some r => token11 r
  | none =>
  match matchLit "embed/".data l with
  | some r => token11 r
  | none =>
  match matchLit "v/".data l with
  | some r => token11 r
  | none =>
  match matchLit "live/".data l with
  | some r => token11 r
  | none => none

/-- The domain alternation `youtube.com/(...)|youtu.be/` plus capture. -/
def matchCore (l : List Char) : Option String :=
  match matchLit "youtube.com/".data l with
  | some r => matchYtPath r
  | none =>
  match matchLit "youtu.be/".data l with
  | some r => token11 r
  | none => none

/-- Optional `(?:www\.|m\.)?` (alternatives in order, then the empty branch). -/
def matchSub (l : List Char) : Option String :=
  (match matchLit "www.".data l with
   | some r => matchCore r
   | none => none).orElse fun _ =>
  (match matchLit "m.".data l with
   | some r => matchCore r
   | none => none).orElse fun _ =>
  matchCore l

/-- Optional `(?:https?:\/\/)?` (greedy `s?`: `https://` before `http://`). -/
def matchAt (l : List Char) : Option String :=
  (match matchLit "https://".data l with
   | some r => matchSub r
   | none => none).orElse fun _ =>
  (match matchLit "http://".data l with
   | some r => matchSub r
   | none => none).orElse fun _ =>
  matchSub l

/-- Unanchored search: leftmost start position wins. -/
def scanUrl : List Char → Option String
  | [] => none
  | c :: rest => (matchAt (c :: rest)).orElse fun _ => scanUrl rest

/-- The bare-token test `/^[\w-]{11}$/`. -/
def isBareToken (l : List Char) : Bool :=
  l.length = 11 ∧ l.all isWordChar

/-- Unanchored search for the legacy form `/[?&]v=([\w-]{11})/`. -/
def scanLegacy : List Char → Option String
  | [] => none
  | c :: rest =>
    (if c = '?' ∨ c = '&' then
      match matchLit "v=".data rest with
      | some r => token11 r
      | none => none
     else none).orElse fun _ => scanLegacy rest

/-- Model of `extractVideoId` (youtubeService.ts lines 20-39). -/
def extractVideoId (url : String) : Option String :=
  if url = "" then none
  else
    let cleanUrl := jsTrim url
    match scanUrl cleanUrl.data with
    | some id => some id
    | none =>
      if isBareToken cleanUrl.data then some cleanUrl
      else scanLegacy cleanUrl.data

/-! ## JSON values and JS coercions

`JValue` models the values `JSON.parse` can produce (`undefined` is modelled
by absence: `jLookup` returning `none`). -/

inductive JValue where
  | null : JValue
  | bool : Bool → JValue
  | num : Int → JValue
  | str : String → JValue
  | arr : List JValue → JValue
  | obj : List (String × JValue) → JValue
deriving Repr

/-- Property lookup on an object's field list. -/
def jLookup (k : String) : List (String × JValue) → Option JValue
  | [] => none
  | (k', v) :: rest => if k' = k then some v else jLookup k rest

/-- JS truthiness of a JSON value (numbers are modelled as integers). -/
def jTruthy : JValue → Bool
  | JValue.null => false
  | JValue.bool b => b
  | JValue.num n => n ≠ 0
  | JValue.str s => s ≠ ""
  | JValue.arr _ => true
  | JValue.obj _ => true

/-- `v.k` as a JS property access: `none` models `undefined`. -/
def jField (v : JValue) (k : String) : Option JValue :=
  match v with
  | JValue.obj fs => jLookup k fs
  | _ => none

/-- `v.k`, with `undefined` collapsed into `null` (both are falsy and both
normalize to the empty transcript, the only uses in the source). -/
def jFieldD (v : JValue) (k : String) : JValue :=
  (jField v k).getD JValue.null

/-- `v.k` when it is truthy, else `none` (models `v.k && ...` / `v.k || ...`). -/
def jTruthyField (v : JValue) (k : String) : Option JValue :=
  match jField v k with
  | some x => if jTruthy x then some x else none
  | none => none

mutual

/-- JS `String(v)` coercion. -/
def jsString : JValue → String
  | JValue.null => "null"
  | JValue.bool b => if b then "true" else "false"
  | JValue.num n => toString n
  | JValue.str s => s
  | JValue.arr xs => String.intercalate "," (jsStringArr xs)
  | JValue.obj _ => "[object Object]"

/-- Elements of `Array.prototype.join`: `null` joins as the empty string. -/
def jsStringArr : List JValue → List String
  | [] => []
  | JValue.null :: vs => "" :: jsStringArr vs
  | v :: vs => jsString v :: jsStringArr vs

end

/-- Minimal JSON string escaping for the `JSON.stringify` fallback. -/
def jsonEscapeChar (c : Char) : List Char :=
  if c = '"' then ['\\', '"']
  else if c = '\\' then ['\\', '\\']
  else if c = '\n' then ['\\', 'n']
  else [c]

def jsonEscape (s : String) : String :=
  String.mk (s.data.foldr (fun c acc => jsonEscapeChar c ++ acc) [])

mutual

/-- Model of `JSON.stringify` on parsed JSON values. -/
def jStringify : JValue → String
  | JValue.null => "null"
  | JValue.bool b => if b then "true" else "false"
  | JValue.num n => toString n
  | JValue.str s => "\"" ++ jsonEscape s ++ "\""
  | JValue.arr xs => "[" ++ String.intercalate "," (jStringifyArr xs) ++ "]"
  | JValue.obj fs => "\x7b" ++ String.intercalate "," (jStringifyObj fs) ++ "\x7d"

def jStringifyArr : List JValue → List String
  | [] => []
  | v :: vs => jStringify v :: jStringifyArr vs

def jStringifyObj : List (String × JValue) → List String
  | [] => []
  | (k, v) :: fs => ("\"" ++ jsonEscape k ++ "\":" ++ jStringify v) :: jStringifyObj fs

end

/-! ## `normalizeTranscriptText` (youtubeService.ts lines 111-137) -/

/-- `replace(/\s+/g, ' ')`: collapse whitespace runs to single spaces. -/
def collapseRuns : List Char → Bool → List Char
  | [], _ => []
  | c :: rest, prevWs =>
    if isJsWs c then
      if prevWs then collapseRuns rest true else ' ' :: collapseRuns rest true
    else c :: collapseRuns rest false

/-- `s.replace(/\s+/g, ' ').trim()`. -/
def collapseWsTrim (s : String) : String :=
  String.mk (trimCharsEnd ((collapseRuns s.data false).dropWhile isJsWs))

/-- `item.text || item.snippet || ""` followed by the `join` coercion. -/
def arrItemText (item : JValue) : String :=
  match (jTruthyField item "text").orElse fun _ => jTruthyField item "snippet" with
  | some x => jsString x
  | none => ""

/-- Model of `normalizeTranscriptText`. -/
def normalizeTranscriptText (content : JValue) : String :=
  if jTruthy content = false then ""
  else
    match content with
    | JValue.str s => collapseWsTrim s
    | JValue.arr xs => collapseWsTrim (String.intercalate " " (xs.map arrItemText))
    | JValue.obj fs =>
      match jLookup "text" fs with
      | some (JValue.str s) =>
        if s ≠ "" then s
        else
          match h : jLookup "transcript" fs with
          | some t =>
            if jTruthy t then normalizeTranscriptText t else jStringify (JValue.obj fs)
          | none => jStringify (JValue.obj fs)
      | _ =>
        match h : jLookup "transcript" fs with
        | some t =>
          if jTruthy t then normalizeTranscriptText t else jStringify (JValue.obj fs)
        | none => jStringify (JValue.obj fs)
    | other => jsString other
termination_by sizeOf content
decreasing_by
  all_goals
    simp only [JValue.obj.sizeOf_spec]
    have key : ∀ (fs : List (String × JValue)) (v : JValue),
        jLookup "transcript" fs = some v → sizeOf v < sizeOf fs := by
      intro fs
      induction fs with
      | nil => intro v hv; simp [jLookup] at hv
      | cons p rest ih =>
        intro v hv
        obtain ⟨k', w⟩ := p
        simp only [jLookup] at hv
        by_cases hk : k' = "transcript"
        · simp [hk] at hv
          subst hv
          simp
          omega
        · simp [hk] at hv
          have := ih v hv
          simp
          omega
    have := key fs t h
    omega

/-! ## HTTP layer and `safeJsonFetch` (youtubeService.ts lines 140-158)

An `HttpResponse` carries the status, the raw body text, and the result of
`JSON.parse(body)` (`none` models a parse failure). A network operation is an
`Except String HttpResponse`: the error case models a rejected `fetch`
promise, carrying `error.message`. -/

structure HttpResponse where
  status : Nat
  body : String
  json : Option JValue

/-- `Response.ok`: status in the 200-299 range. -/
def responseOk (r : HttpResponse) : Bool := 200 ≤ r.status ∧ r.status ≤ 299

/-- `text.slice(0, 100).replace(/\n/g, ' ')`. -/
def rawSnippet (body : String) : String :=
  String.mk ((body.data.take 100).map fun c => if c = '\n' then ' ' else c)

/-- Model of `safeJsonFetch`. -/
def safeJsonFetch (response : HttpResponse) (errorPrefix : String) :
    Except String JValue :=
  if response.status = 401 then
    Except.error (errorPrefix ++ ": Unauthorized (401) - Check API Key")
  else if response.status = 403 then
    Except.error (errorPrefix ++ ": Forbidden (403) - Quota or Key issue")
  else if response.status = 404 then
    Except.error (errorPrefix ++ ": Not Found (404)")
  else if response.status = 500 then
    Except.error (errorPrefix ++ ": Server Error (500)")
  else if response.status = 502 then
    Except.error (errorPrefix ++ ": Bad Gateway (502) - Service overloaded")
  else
    match response.json with
    | some j => Except.ok j
    | none =>
      Except.error (errorPrefix ++ ": Invalid JSON response. Raw: \""
        ++ rawSnippet response.body ++ "...\"")

/-- Strict comparison `v.status === 'lit'` with a string literal. -/
def jFieldIsStr (v : JValue) (k lit : String) : Bool :=
  match jField v k with
  | some (JValue.str s) => s = lit
  | _ => false

/-- `someTruthyField || defaultMessage` followed by the `Error`-message
`String()` coercion. -/
def jsErrMessage (field : Option JValue) (dflt : String) : String :=
  match field with
  | some v => jsString v
  | none => dflt

/-! ## Transcript providers (youtubeService.ts lines 161-252) -/

/-- Model of `fetchTranscriptRapid`. The single GET is the oracle `net`. -/
def fetchTranscriptRapid (net : Except String HttpResponse) :
    Except String String := do
  let response ← net
  let data ← safeJsonFetch response "RapidAPI"
  if responseOk response = false then
    Except.error (jsErrMessage (jTruthyField data "message")
      ("RapidAPI Error " ++ toString response.status))
  else
    match jField data "content" with
    | some (JValue.arr xs) => pure (normalizeTranscriptText (JValue.arr xs))
    | _ =>
      match data with
      | JValue.arr _ => pure (normalizeTranscriptText data)
      | _ => pure "Unexpected response format from RapidAPI"

/-- `maxAttempts` of the Supadata poll loop (source line 227). -/
def maxAttempts : Nat := 30

/-- The fixed poll interval in milliseconds (source line 231); the `setTimeout`
wait itself has no observable effect in the model. -/
def pollIntervalMs : Nat := 2000

/-- Model of `pollSupadataJob`'s `while` loop: `poll n` is the response to the
`n`-th poll request; the fuel argument is `maxAttempts - attempts`. -/
def pollSupadataJobAux (poll : Nat → Except String HttpResponse) :
    Nat → Nat → Except String String
  | 0, _ => Except.error "Supadata transcription timed out."
  | fuel + 1, attempts => do
    let response ← poll attempts
    let data ← safeJsonFetch response "Supadata Poll"
    if jFieldIsStr data "status" "completed" then
      pure (normalizeTranscriptText (jFieldD data "content"))
    else if jFieldIsStr data "status" "failed" then
      Except.error (jsErrMessage (jTruthyField data "error")
        "Supadata transcription job failed.")
    else
      pollSupadataJobAux poll fuel (attempts + 1)

/-- Model of `pollSupadataJob` (youtubeService.ts lines 224-252). -/
def pollSupadataJob (poll : Nat → Except String HttpResponse) :
    Except String String :=
  pollSupadataJobAux poll maxAttempts 0

/-- Network oracle for the Supadata provider: the initial GET and the
sequence of poll responses. -/
structure SupaNet where
  initial : Except String HttpResponse
  poll : Nat → Except String HttpResponse

/-- Model of `fetchTranscriptSupadata` (youtubeService.ts lines 192-221). -/
def fetchTranscriptSupadata (net : SupaNet) : Except String String := do
  let response ← net.initial
  if response.status = 202 then do
    let data ← safeJsonFetch response "Supadata (Async)"
    if jTruthy (jFieldD data "jobId") = false then
      Except.error "Received 202 but no jobId from Supadata."
    else
      pollSupadataJob net.poll
  else do
    let data ← safeJsonFetch response "Supadata"
    if responseOk response = false then
      Except.error (jsErrMessage
        ((jTruthyField data "message").orElse fun _ => jTruthyField data "error")
        ("Supadata Error " ++ toString response.status))
    else
      match jField data "content" with
      | some JValue.null => Except.error "Unexpected response format from Supadata."
      | some c => pure (normalizeTranscriptText c)
      | none => Except.error "Unexpected response format from Supadata."

/-! ## The transcript router `fetchTranscript` (youtubeService.ts lines 255-278) -/

/-- Network oracle for one router invocation. -/
structure TranscriptNet where
  rapid : Except String HttpResponse
  supa : SupaNet

/-- JS falsiness of the optional `apiKey` argument (`undefined` or `""`). -/
def jsFalsyKey : Option String → Bool
  | none => true
  | some s => s = ""

/-- Model of the router `fetchTranscript`. The provider selector is a plain
string so that the defensive `else` branch of the source is reachable. The
`try`/`catch` is the final `match`: every thrown error resolves to
`"Error: " ++ message`. -/
def fetchTranscript (videoId : String) (provider : String)
    (apiKey : Option String) (net : TranscriptNet) : String :=
  let result : Except String String :=
    if provider = "rapid-api" then
      if jsFalsyKey apiKey then Except.error "RapidAPI Key is required."
      else fetchTranscriptRapid net.rapid
    else if provider = "supadata" then
      if jsFalsyKey apiKey then Except.error "Supadata API Key is required."
      else fetchTranscriptSupadata net.supa
    else Except.error "Invalid Transcription Provider selected."
  match result with
  | Except.ok s => s
  | Except.error e => "Error: " ++ e

/-! ## Data model (`types.ts`) and the metadata fetcher
(youtubeService.ts lines 72-108)

`VideoData` is the normalized record shape built by `getVideoDetails`;
`engagementRate`/`rank` are declared in `types.ts` but never written by the
modelled core and are omitted. `viralityScore` is set only by the analysis
transform; JS numbers there are modelled by `ℚ`. -/

structure VideoData where
  id : String
  title : String
  url : String
  thumbnail : Option String
  viewCount : String
  likeCount : String
  commentCount : String
  publishedAt : String
  duration : String
  channelTitle : String
  channelId : String
  tags : List String
  description : String
  categoryId : String
  transcript : String
  viralityScore : Option ℚ
deriving Repr, DecidableEq

/-- Thumbnail urls of one raw item (`snippet.thumbnails?.{maxres,high,medium}?.url`). -/
structure Thumbnails where
  maxres : Option String
  high : Option String
  medium : Option String
deriving Repr, DecidableEq

/-- One element of the remote `items` array, flattening the
`snippet`/`statistics`/`contentDetails` sub-objects to the accessed fields. -/
structure RawVideoItem where
  id : String
  title : String
  thumbnails : Option Thumbnails
  viewCount : Option String
  likeCount : Option String
  commentCount : Option String
  publishedAt : String
  duration : String
  channelTitle : String
  channelId : String
  tags : Option (List String)
  description : Option String
  categoryId : String
deriving Repr, DecidableEq

/-- `s` when it is a truthy string, else `none`. -/
def strTruthy : Option String → Option String
  | some s => if s = "" then none else some s
  | none => none

/-- `o || d` on an optional string (both `undefined` and `""` fall through). -/
def jsOrDefault (o : Option String) (d : String) : String :=
  match strTruthy o with
  | some s => s
  | none => d

/-- `thumbnails?.maxres?.url || thumbnails?.high?.url || thumbnails?.medium?.url`. -/
def pickThumbnail : Option Thumbnails → Option String
  | none => none
  | some th =>
    match strTruthy th.maxres with
    | some s => some s
    | none =>
      match strTruthy th.high with
      | some s => some s
      | none => th.medium

/-- The per-item mapping of `getVideoDetails` (lines 91-107). -/
def mapVideoItem (item : RawVideoItem) : VideoData :=
  { id := item.id
    title := item.title
    url := "https://www.youtube.com/watch?v=" ++ item.id
    thumbnail := pickThumbnail item.thumbnails
    viewCount := jsOrDefault item.viewCount "0"
    likeCount := jsOrDefault item.likeCount "0"
    commentCount := jsOrDefault item.commentCount "0"
    publishedAt := item.publishedAt
    duration := item.duration
    channelTitle := item.channelTitle
    channelId := item.channelId
    tags := item.tags.getD []
    description := jsOrDefault item.description ""
    categoryId := item.categoryId
    transcript := ""
    viralityScore := none }

/-- Remote response of one batched `/videos` request (`data.items` may be
missing on a malformed response). -/
structure VideosApiResponse where
  items : Option (List RawVideoItem)

/-- The chunking loop `for (let i = 0; i < videoIds.length; i += 50)`. -/
def chunksOf50 (l : List String) : List (List String) :=
  if l = [] then [] else l.take 50 :: chunksOf50 (l.drop 50)
termination_by l.length
decreasing_by
  simp only [List.length_drop]
  cases l with
  | nil => simp_all
  | cons a as => simp; omega

/-- Sequential chunk requests: result and the list of issued requests
(a rejected request stops the loop and propagates). -/
def fetchChunks (net : List String → Except String VideosApiResponse) :
    List (List String) → Except String (List RawVideoItem) × List (List String)
  | [] => (Except.ok [], [])
  | c :: cs =>
    match net c with
    | Except.error e => (Except.error e, [c])
    | Except.ok resp =>
      let rest := fetchChunks net cs
      (match rest.1 with
       | Except.ok items => Except.ok (resp.items.getD [] ++ items)
       | Except.error e => Except.error e,
       c :: rest.2)

/-- Model of `getVideoDetails` (lines 72-108): result plus issued requests. -/
def getVideoDetails (net : List String → Except String VideosApiResponse)
    (videoIds : List String) (apiKey : String) :
    Except String (List VideoData) × List (List String) :=
  if videoIds = [] then (Except.ok [], [])
  else
    let r := fetchChunks net (chunksOf50 videoIds)
    (match r.1 with
     | Except.ok allVideos => Except.ok (allVideos.map mapVideoItem)
     | Except.error e => Except.error e,
     r.2)

/-! ## `fetchBatchVideos` (youtubeService.ts lines 328-341) -/

/-- First-occurrence de-duplication, as `Array.from(new Set(ids))`. -/
def dedupFirstAux : List String → List String → List String
  | [], _ => []
  | x :: xs, seen =>
    if x ∈ seen then dedupFirstAux xs seen else x :: dedupFirstAux xs (x :: seen)

def dedupFirst (l : List String) : List String := dedupFirstAux l []

/-- Model of `fetchBatchVideos`. -/
def fetchBatchVideos (net : List String → Except String VideosApiResponse)
    (urls : List String) (apiKey : String) :
    Except String (List VideoData) × List (List String) :=
  let ids := urls.filterMap extractVideoId
  let uniqueIds := dedupFirst ids
  if uniqueIds = [] then
    (Except.error
      "No valid YouTube video IDs found. Check your links (Supports: watch, shorts, share links).",
     [])
  else getVideoDetails net uniqueIds apiKey

/-! ## `resolveChannelId` (youtubeService.ts lines 42-69) -/

/-- Substring containment, modelling `String.prototype.includes`. -/
def listIncludes (sub : List Char) : List Char → Bool
  | [] => listHasPfx sub []
  | c :: rest => listHasPfx sub (c :: rest) ∨ listIncludes sub rest

def strIncludes (s sub : String) : Bool := listIncludes sub.data s.data

/-- Single-character split, modelling `String.prototype.split('/')`
(structurally recursive, unlike `String.splitOn`). -/
def splitOnChar (sep : Char) : List Char → List (List Char)
  | [] => [[]]
  | c :: rest =>
    if c = sep then [] :: splitOnChar sep rest
    else
      match splitOnChar sep rest with
      | [] => [[c]]
      | p :: ps => (c :: p) :: ps

/-- `s.split('/')` as a list of strings. -/
def jsSplit (s : String) (sep : Char) : List String :=
  (splitOnChar sep s.data).map String.mk

/-- `parts.find(p => p.startsWith('@')) || parts[parts.length - 1]`. -/
def handleBase (parts : List String) : String :=
  match parts.find? (fun p => strHasPrefix "@" p) with
  | some h => h
  | none => parts.getLastD ""

/-- Lines 52-55 applied to the split URL segments. -/
def extractHandleParts (parts : List String) : String :=
  if handleBase parts = "" ∧ parts.contains "channel" then
    (parts.get? (parts.indexOf "channel" + 1)).getD ""
  else handleBase parts

/-- The handle extraction of lines 48-56: prefer an `@`-segment, else the
final `/`-segment, and only when that is empty (and a `channel` segment
exists) the segment following `channel`. A non-URL input is its own handle. -/
def extractHandle (cleanInput : String) : String :=
  if strIncludes cleanInput "youtube.com/" then
    extractHandleParts (jsSplit cleanInput '/')
  else cleanInput

/-- Model of `resolveChannelId`. The oracle `chSearch` maps the queried
handle to the channel-search response: `none` models a missing `items`
field, otherwise the list of `snippet.channelId` values. -/
def resolveChannelId (chSearch : String → Except String (Option (List String)))
    (input : String) (apiKey : String) : Except String String :=
  let cleanInput := jsTrim input
  if strHasPrefix "UC" cleanInput ∧ cleanInput.length = 24 then Except.ok cleanInput
  else
    let handle := extractHandle cleanInput
    if handle = "" then Except.error "Invalid channel URL or handle"
    else
      match chSearch handle with
      | Except.error e => Except.error e
      | Except.ok none => Except.error ("Channel not found for handle: " ++ handle)
      | Except.ok (some []) => Except.error ("Channel not found for handle: " ++ handle)
      | Except.ok (some (channelId :: _)) => Except.ok channelId

/-! ## `fetchChannelVideos` (youtubeService.ts lines 281-325) -/

inductive VideoType where
  | video : VideoType
  | short : VideoType
  | any : VideoType
deriving Repr, DecidableEq

/-- Remote response of the `/search` call: `error` carries a truthy
`error.message`, `items` the `id.videoId` values. -/
structure SearchResp where
  error : Option String
  items : Option (List String)

/-- Network oracle for one channel-discovery run. -/
structure ChannelNet where
  chSearch : String → Except String (Option (List String))
  search : String → Nat → Except String SearchResp
  videos : List String → Except String VideosApiResponse

/-- Outcome of `fetchChannelVideos`: the result, the single search request
(channel id and `maxResults`) when issued, and the detail requests. -/
structure ChannelFetchOut where
  result : Except String (List VideoData)
  searchReq : Option (String × Nat)
  videoReqs : List (List String)

/-- The content-type filter of lines 317-322. -/
def videoTypeFilter (videoType : VideoType) (video : VideoData) : Bool :=
  let seconds := parseDurationToSeconds video.duration
  match videoType with
  | VideoType.short => seconds ≤ 60
  | VideoType.video => 60 < seconds
  | VideoType.any => true

/-- Model of `fetchChannelVideos` (the advisory `onProgress` callback has no
observable effect on the result and is not modelled). -/
def fetchChannelVideos (net : ChannelNet) (channelInput : String) (limit : Nat)
    (videoType : VideoType) (apiKey : String) : ChannelFetchOut :=
  match resolveChannelId net.chSearch channelInput apiKey with
  | Except.error e => { result := Except.error e, searchReq := none, videoReqs := [] }
  | Except.ok channelId =>
    let searchLimit := min 50 (max (limit * 3) 20)
    match net.search channelId searchLimit with
    | Except.error e =>
      { result := Except.error e, searchReq := some (channelId, searchLimit), videoReqs := [] }
    | Except.ok searchData =>
      match searchData.error with
      | some msg =>
        { result := Except.error msg, searchReq := some (channelId, searchLimit), videoReqs := [] }
      | none =>
        match searchData.items with
        | none =>
          { result := Except.ok [], searchReq := some (channelId, searchLimit), videoReqs := [] }
        | some [] =>
          { result := Except.ok [], searchReq := some (channelId, searchLimit), videoReqs := [] }
        | some (v :: ids) =>
          let d := getVideoDetails net.videos (v :: ids) apiKey
          match d.1 with
          | Except.error e =>
            { result := Except.error e, searchReq := some (channelId, searchLimit),
              videoReqs := d.2 }
          | Except.ok detailedVideos =>
            let filtered := detailedVideos.filter (videoTypeFilter videoType)
            { result := Except.ok (filtered.take limit),
              searchReq := some (channelId, searchLimit), videoReqs := d.2 }

/-! ## The orchestrator's transcript phase (YouTubeScraper.tsx lines 293-337)

The loop is strictly sequential. Per item `i` it
  1. checks the cancelled set; if hit, stores `transcript = 'Cancelled'`,
     publishes and advances progress without any network call;
  2. otherwise waits 500ms (no observable effect) and calls the router;
  3. re-checks the cancelled set, discarding the fetched result on a hit;
  4. otherwise classifies the result by `startsWith` prefixes and on a
     non-error increments the local usage counter and stores the clamped
     value (`Math.min(ceiling, count)`);
  5. stores the transcript, publishes the whole array, advances progress.

The cancelled set is mutated concurrently by the UI, so membership is an
oracle per checkpoint: `c1 i id` (checkpoint 1) and `c2 i id` (checkpoint 3).
The router's result for iteration `i` is the oracle `fetchRes i` (the loop
forwards `video.id`, the selected provider and its key to `fetchTranscript`,
whose value depends on the network and is left abstract here). -/

/-- The provider selection held in component state (`TranscriptProvider`). -/
inductive Provider where
  | supadata : Provider
  | rapidApi : Provider
deriving Repr, DecidableEq

/-- Usage ceilings of lines 330-331 (also the gate values of lines 220-227). -/
def ledgerCeiling : Provider → Nat
  | Provider.supadata => 100
  | Provider.rapidApi => 20

/-- The error classification of line 324:
`transcript.startsWith("Error") || startsWith("API Error") || startsWith("Request Failed")`. -/
def isTranscriptError (transcript : String) : Bool :=
  strHasPrefix "Error" transcript ∨ strHasPrefix "API Error" transcript ∨
    strHasPrefix "Request Failed" transcript

/-- `10 + Math.floor(((i + 1) / total) * 90)`, with the float floor modelled
by exact natural division (claims proved below do not depend on the exact
value, only on the event being emitted). -/
def progressValue (done total : Nat) : Nat := 10 + done * 90 / total

attribute [irreducible] progressValue

/-- Observable outcome of the transcript phase. -/
structure LoopResult where
  videos : List VideoData
  count : Nat
  fetched : List Nat
  published : List (List VideoData)
  progressEvents : List Nat
  usageWrites : List (Nat × Nat)
deriving Repr

/-- One-item recursion of the loop: `i` is the current index, `acc` the
already-processed items in reverse, `pending` the items not yet reached,
`count` the local `currentUsageCount`. Each iteration publishes the full
current array (processed prefix, this item's new record, untouched tail). -/
def transcriptPhaseAux (ceiling : Nat) (c1 c2 : Nat → String → Bool)
    (fetchRes : Nat → String) (total : Nat) :
    Nat → List VideoData → List VideoData → Nat → LoopResult
  | _, acc, [], count =>
    { videos := acc.reverse, count := count, fetched := [], published := [],
      progressEvents := [], usageWrites := [] }
  | i, acc, video :: rest, count =>
    if c1 i video.id then
      let video' := { video with transcript := "Cancelled" }
      let r := transcriptPhaseAux ceiling c1 c2 fetchRes total (i + 1) (video' :: acc) rest count
      { r with
        published := (acc.reverse ++ video' :: rest) :: r.published
        progressEvents := progressValue (i + 1) total :: r.progressEvents }
    else
      let transcript := fetchRes i
      if c2 i video.id then
        let video' := { video with transcript := "Cancelled" }
        let r := transcriptPhaseAux ceiling c1 c2 fetchRes total (i + 1) (video' :: acc) rest count
        { r with
          fetched := i :: r.fetched
          published := (acc.reverse ++ video' :: rest) :: r.published
          progressEvents := progressValue (i + 1) total :: r.progressEvents }
      else if isTranscriptError transcript then
        let video' := { video with transcript := transcript }
        let r := transcriptPhaseAux ceiling c1 c2 fetchRes total (i + 1) (video' :: acc) rest count
        { r with
          fetched := i :: r.fetched
          published := (acc.reverse ++ video' :: rest) :: r.published
          progressEvents := progressValue (i + 1) total :: r.progressEvents }
      else
        let video' := { video with transcript := transcript }
        let r := transcriptPhaseAux ceiling c1 c2 fetchRes total (i + 1) (video' :: acc) rest (count + 1)
        { r with
          fetched := i :: r.fetched
          published := (acc.reverse ++ video' :: rest) :: r.published
          progressEvents := progressValue (i + 1) total :: r.progressEvents
          usageWrites := (i, min ceiling (count + 1)) :: r.usageWrites }

/-- Model of the transcript phase of `handleScrape`, started on the metadata
records with the persisted usage count `usage0`. -/
def transcriptPhase (provider : Provider) (c1 c2 : Nat → String → Bool)
    (fetchRes : Nat → String) (videos : List VideoData) (usage0 : Nat) : LoopResult :=
  transcriptPhaseAux (ledgerCeiling provider) c1 c2 fetchRes videos.length 0 [] videos usage0

/-! ## The ranking transform (YouTubeScraper.tsx lines 273-288)

`new Date(...).getTime()` values are supplied by the oracle `dateMs` (the
current time `now` and the parse of each `publishedAt` string); JS float
arithmetic on them is modelled exactly over `ℚ`. `Array.prototype.sort` is
stable (ECMAScript 2019), with comparator
`(b.viralityScore || 0) - (a.viralityScore || 0)`; a stable sort with this
comparator is modelled by `List.mergeSort` with `scoreD b ≤ scoreD a`. -/

/-- `v.viralityScore || 0`. -/
def scoreD (v : VideoData) : ℚ := v.viralityScore.getD 0

/-- The per-record score assignment of lines 276-285. -/
def assignScore (now : ℚ) (dateMs : String → ℚ) (video : VideoData) : VideoData :=
  let published := dateMs video.publishedAt
  let hoursAge : ℚ := max 1 ((now - published) / (1000 * 60 * 60))
  let views : ℚ := (parseIntOr0 video.viewCount : ℤ)
  let likes : ℚ := (parseIntOr0 video.likeCount : ℤ)
  let comments : ℚ := (parseIntOr0 video.commentCount : ℤ)
  let engagementWeight := likes * 5 + comments * 10
  let rawScore := (views + engagementWeight) / hoursAge
  { video with viralityScore := some rawScore }

/-- Model of the analysis branch: score every record, then sort descending
by score with a stable sort. -/
def analyzeVideos (now : ℚ) (dateMs : String → ℚ) (videos : List VideoData) :
    List VideoData :=
  (videos.map (assignScore now dateMs)).mergeSort fun a b => decide (scoreD b ≤ scoreD a)

/-- Raw items of one chunk's response, as derived from the network oracle. -/
def chunkItems (net : List String → Except String VideosApiResponse)
    (c : List String) : List RawVideoItem :=
  match net c with
  | Except.ok resp => resp.items.getD []
  | Except.error _ => []

/-- Per-chunk record list as derived from the network oracle (used to state
that the final result is the in-order concatenation of per-chunk results). -/
def chunkRecords (net : List String → Except String VideosApiResponse)
    (c : List String) : List VideoData :=
  match net c with
  | Except.ok resp => (resp.items.getD []).map mapVideoItem
  | Except.error _ => []

/-- A trivially successful `/videos` oracle (used by concrete instantiations). -/
def okEmptyVideosNet : List String → Except String VideosApiResponse :=
  fun _ => Except.ok { items := some [] }

/-- A channel oracle whose search returns an empty item list. -/
def c8Net : ChannelNet :=
  { chSearch := fun _ => Except.ok (some ["UCfound"])
    search := fun _ _ => Except.ok { error := none, items := some [] }
    videos := okEmptyVideosNet }

/-! ## C5: the ranking transform -/

/-- Modelled from the spec wording of the ranking formula:
`(viewCount + likeCount*5 + commentCount*10) / max(1, hours since publishedAt)`
with each counter parsed from text, defaulting to 0. Stated independently of
the code's `assignScore` and proved to agree with it. -/
def specViralityScore (now : ℚ) (dateMs : String → ℚ) (v : VideoData) : ℚ :=
  (((parseIntOr0 v.viewCount : ℤ) : ℚ) + ((parseIntOr0 v.likeCount : ℤ) : ℚ) * 5 +
    ((parseIntOr0 v.commentCount : ℤ) : ℚ) * 10) /
    max 1 ((now - dateMs v.publishedAt) / 3600000)

/-- The stable descending comparison used by the sort. -/
def scoreLE (a b : VideoData) : Bool := decide (scoreD b ≤ scoreD a)

/-! ## C2: the Supadata poll loop -/

/-- A poll response on which the loop keeps polling: the request resolves,
the body parses (with a non-throwing status), and the reported status is
neither `completed` nor `failed`. -/
def pollContinues (r : Except String HttpResponse) : Prop :=
  ∃ resp j, r = Except.ok resp ∧ safeJsonFetch resp "Supadata Poll" = Except.ok j ∧
    jFieldIsStr j "status" "completed" = false ∧ jFieldIsStr j "status" "failed" = false

/-- A poll response whose job status is still `queued`. -/
def queuedResp : HttpResponse :=
  { status := 200, body := "", json := some (JValue.obj [("status", JValue.str "queued")]) }

/-- A 202 response carrying a job id. -/
def supaInit202 : HttpResponse :=
  { status := 202, body := "", json := some (JValue.obj [("jobId", JValue.str "j1")]) }

/-- A Supadata network where the initial request returns 202 with a job id
and every poll reports `queued`. -/
def c2Net : TranscriptNet :=
  { rapid := Except.ok { status := 200, body := "", json := some (JValue.obj []) },
    supa := { initial := Except.ok supaInit202, poll := fun _ => Except.ok queuedResp } }

/-! ## C1: the transcript router -/

/-- A rapid-api network whose single response is HTTP 200 with valid JSON
(an object with no transcript content). -/
def c1Net : TranscriptNet :=
  { rapid := Except.ok { status := 200, body := "\x7b\x7d", json := some (JValue.obj []) },
    supa := { initial := Except.ok { status := 200, body := "", json := some (JValue.obj []) },
              poll := fun _ => Except.ok queuedResp } }

/-! ## C3 and C4: the orchestrator's transcript phase -/

/-- The record stored for the item at absolute index `i` by the loop. -/
def itemOutcome (c1 c2 : Nat → String → Bool) (fetchRes : Nat → String)
    (i : Nat) (video : VideoData) : VideoData :=
  if c1 i video.id then { video with transcript := "Cancelled" }
  else if c2 i video.id then { video with transcript := "Cancelled" }
  else { video with transcript := fetchRes i }

/-- Absolute indices of items whose fetch result is kept and classified as a
success: not cancelled at either checkpoint and not an error by prefix. -/
def successIndices (c1 c2 : Nat → String → Bool) (fetchRes : Nat → String) :
    Nat → List VideoData → List Nat
  | _, [] => []
  | i, v :: rest =>
    if c1 i v.id then successIndices c1 c2 fetchRes (i + 1) rest
    else if c2 i v.id then successIndices c1 c2 fetchRes (i + 1) rest
    else if isTranscriptError (fetchRes i) then successIndices c1 c2 fetchRes (i + 1) rest
    else i :: successIndices c1 c2 fetchRes (i + 1) rest

/-- The sequence of clamped ledger writes produced by a run of successes. -/
def buildWrites (ceiling : Nat) : Nat → List Nat → List (Nat × Nat)
  | _, [] => []
  | count, j :: js => (j, min ceiling (count + 1)) :: buildWrites ceiling (count + 1) js

/-- Absolute indices for which the router is invoked (checkpoint 1 misses). -/
def fetchedIndices (c1 : Nat → String → Bool) : Nat → List VideoData → List Nat
  | _, [] => []
  | i, v :: rest =>
    if c1 i v.id then fetchedIndices c1 (i + 1) rest
    else i :: fetchedIndices c1 (i + 1) rest

/-- C4 counterexample run: a single item, not cancelled before dispatch but
cancelled while the fetch is in flight, whose fetched result is a plain
(non-error) transcript. -/
def cexVideo : VideoData :=
  { id := "vidA", title := "", url := "", thumbnail := none, viewCount := "0",
    likeCount := "0", commentCount := "0", publishedAt := "", duration := "",
    channelTitle := "", channelId := "", tags := [], description := "",
    categoryId := "", transcript := "", viralityScore := none }

def c4CexRun : LoopResult :=
  transcriptPhase Provider.supadata (fun _ _ => false) (fun _ _ => true)
    (fun _ => "a transcript") [cexVideo] 0

/-- A run with one item cancelled before its turn. -/
def c3Run : LoopResult :=
  transcriptPhase Provider.supadata (fun _ id => id = "vidA") (fun _ _ => false)
    (fun _ => "text") [cexVideo] 0

/-- A run with one uncancelled, successful item, starting from usage 5. -/
def c4WitRun : LoopResult :=
  transcriptPhase Provider.rapidApi (fun _ _ => false) (fun _ _ => false)
    (fun _ => "great video text") [cexVideo] 5

/-! # Helper lemmas -/

theorem listHasPfx_self_append (p rest : List Char) : listHasPfx p (p ++ rest) = true := by
  induction p with
  | nil => rfl
  | cons c cs ih => simpa [listHasPfx] using ih

theorem strHasPrefix_error_marker (e : String) :
    strHasPrefix "Error:" ("Error: " ++ e) = true := by
  have h : ("Error: " ++ e).data = "Error:".data ++ (' ' :: e.data) := by
    rw [String.data_append]
    rfl
  unfold strHasPrefix
  rw [h]
  exact listHasPfx_self_append _ _

theorem chunksOf50_flatten (l : List String) : (chunksOf50 l).flatten = l := by
  induction l using chunksOf50.induct with
  | case1 => simp [chunksOf50]
  | case2 l hne ih =>
    rw [chunksOf50, if_neg hne]
    simp [ih]

theorem chunksOf50_mem {l : List String} {c : List String} (hc : c ∈ chunksOf50 l) :
    c ≠ [] ∧ c.length ≤ 50 := by
  induction l using chunksOf50.induct with
  | case1 => simp [chunksOf50] at hc
  | case2 l hne ih =>
    rw [chunksOf50, if_neg hne] at hc
    rcases List.mem_cons.mp hc with h | h
    · subst h
      constructor
      · simp [List.take_eq_nil_iff, hne]
      · simp [List.length_take]
    · exact ih h

theorem chunksOf50_lengths_120 {l : List String} (hl : l.length = 120) :
    (chunksOf50 l).map List.length = [50, 50, 20] := by
  have h0 : l ≠ [] := by
    intro h
    rw [h] at hl
    simp at hl
  have h1 : l.drop 50 ≠ [] := by
    intro h
    have := congrArg List.length h
    simp [hl] at this
  have h2 : (l.drop 50).drop 50 ≠ [] := by
    intro h
    have := congrArg List.length h
    simp [hl] at this
  have h3 : ((l.drop 50).drop 50).drop 50 = [] := by
    apply List.eq_nil_of_length_eq_zero
    simp [hl]
  rw [chunksOf50, if_neg h0, chunksOf50, if_neg h1, chunksOf50, if_neg h2, chunksOf50, if_pos h3]
  simp [List.length_take, List.length_drop, hl]

theorem chunkRecords_eq_map (net : List String → Except String VideosApiResponse)
    (c : List String) : chunkRecords net c = (chunkItems net c).map mapVideoItem := by
  unfold chunkRecords chunkItems
  cases net c <;> rfl

theorem fetchChunks_ok (net : List String → Except String VideosApiResponse)
    (hok : ∀ c, ∃ resp, net c = Except.ok resp) (cs : List (List String)) :
    fetchChunks net cs = (Except.ok (cs.map (chunkItems net)).flatten, cs) := by
  induction cs with
  | nil => simp [fetchChunks]
  | cons c cs ih =>
    obtain ⟨resp, hresp⟩ := hok c
    rw [fetchChunks, hresp, ih]
    simp [chunkItems, hresp]

/-- C6: `getVideoDetails` applied to the empty identifier sequence returns the
empty sequence without issuing any network call; for a non-empty sequence it
partitions the input into consecutive chunks of at most 50 identifiers (120
identifiers yield exactly 3 requests of sizes 50, 50, 20), issues one request
per chunk, concatenates the chunk results in chunk order, and initializes
every produced record's transcript field to the empty string. -/
theorem getVideoDetails_spec
    (net : List String → Except String VideosApiResponse)
    (videoIds : List String) (apiKey : String)
    (hok : ∀ c, ∃ resp, net c = Except.ok resp) :
    (videoIds = [] → getVideoDetails net videoIds apiKey = (Except.ok [], [])) ∧
    ((getVideoDetails net videoIds apiKey).2).flatten = videoIds ∧
    (∀ c ∈ (getVideoDetails net videoIds apiKey).2, c ≠ [] ∧ c.length ≤ 50) ∧
    (videoIds.length = 120 →
      ((getVideoDetails net videoIds apiKey).2).map List.length = [50, 50, 20]) ∧
    (getVideoDetails net videoIds apiKey).1 =
      Except.ok (((getVideoDetails net videoIds apiKey).2).map (chunkRecords net)).flatten ∧
    (∀ vs, (getVideoDetails net videoIds apiKey).1 = Except.ok vs →
      ∀ v ∈ vs, v.transcript = "") := by
  by_cases h : videoIds = []
  · subst h
    refine ⟨fun _ => by simp [getVideoDetails], ?_, ?_, ?_, ?_, ?_⟩
    · simp [getVideoDetails]
    · simp [getVideoDetails]
    · intro h120; simp at h120
    · simp [getVideoDetails]
    · intro vs hvs
      simp [getVideoDetails] at hvs
      subst hvs
      simp
  · have hunf : getVideoDetails net videoIds apiKey =
        (Except.ok ((((chunksOf50 videoIds).map (chunkItems net)).flatten).map mapVideoItem),
         chunksOf50 videoIds) := by
      rw [getVideoDetails, if_neg h, fetchChunks_ok net hok]
    refine ⟨fun h' => absurd h' h, ?_, ?_, ?_, ?_, ?_⟩
    · rw [hunf]
      exact chunksOf50_flatten videoIds
    · rw [hunf]
      intro c hc
      exact chunksOf50_mem hc
    · intro h120
      rw [hunf]
      exact chunksOf50_lengths_120 h120
    · rw [hunf]
      simp only [List.map_flatten, List.map_map]
      have hfun : (List.map mapVideoItem ∘ chunkItems net) = chunkRecords net := by
        funext c
        simp only [Function.comp]
        rw [chunkRecords_eq_map]
      rw [hfun]
    · rw [hunf]
      intro vs hvs
      simp only [Except.ok.injEq] at hvs
      subst hvs
      intro v hv
      rcases List.mem_map.mp hv with ⟨item, _, rfl⟩
      rfl

theorem getVideoDetails_spec_witness :
    ((List.range 120).map (fun n => toString n)).length = 120 ∧
    (getVideoDetails okEmptyVideosNet
      ((List.range 120).map (fun n => toString n)) "k").2.map List.length = [50, 50, 20] ∧
    getVideoDetails okEmptyVideosNet [] "k" = (Except.ok [], []) := by
  have h1 := getVideoDetails_spec okEmptyVideosNet
    ((List.range 120).map (fun n => toString n)) "k" (fun c => ⟨_, rfl⟩)
  have h2 := getVideoDetails_spec okEmptyVideosNet [] "k" (fun c => ⟨_, rfl⟩)
  exact ⟨by simp, h1.2.2.2.1 (by simp), h2.1 rfl⟩

/-! ## C7 helper lemmas -/

theorem dedupFirstAux_mem (l : List String) :
    ∀ (seen : List String) (a : String),
      a ∈ dedupFirstAux l seen ↔ a ∈ l ∧ a ∉ seen := by
  induction l with
  | nil => intro seen a; simp [dedupFirstAux]
  | cons x xs ih =>
    intro seen a
    by_cases hx : x ∈ seen
    · rw [dedupFirstAux, if_pos hx, ih]
      constructor
      · rintro ⟨ha, hs⟩
        exact ⟨List.mem_cons_of_mem _ ha, hs⟩
      · rintro ⟨ha, hs⟩
        rcases List.mem_cons.mp ha with rfl | ha
        · exact absurd hx hs
        · exact ⟨ha, hs⟩
    · rw [dedupFirstAux, if_neg hx]
      constructor
      · intro ha
        rcases List.mem_cons.mp ha with rfl | ha
        · exact ⟨List.mem_cons_self _ _, hx⟩
        · rcases (ih _ _).mp ha with ⟨h1, h2⟩
          refine ⟨List.mem_cons_of_mem _ h1, fun hs => h2 (List.mem_cons_of_mem _ hs)⟩
      · rintro ⟨ha, hs⟩
        rcases List.mem_cons.mp ha with rfl | ha
        · exact List.mem_cons_self _ _
        · by_cases hax : a = x
          · subst hax; exact List.mem_cons_self _ _
          · exact List.mem_cons_of_mem _ ((ih _ _).mpr
              ⟨ha, fun hm => by
                rcases List.mem_cons.mp hm with h | h
                · exact hax h
                · exact hs h⟩)

theorem dedupFirstAux_nodup (l : List String) :
    ∀ seen : List String, (dedupFirstAux l seen).Nodup := by
  induction l with
  | nil => intro seen; simp [dedupFirstAux]
  | cons x xs ih =>
    intro seen
    by_cases hx : x ∈ seen
    · rw [dedupFirstAux, if_pos hx]; exact ih seen
    · rw [dedupFirstAux, if_neg hx]
      refine List.nodup_cons.mpr ⟨?_, ih _⟩
      intro hmem
      exact ((dedupFirstAux_mem xs _ x).mp hmem).2 (List.mem_cons_self _ _)

theorem dedupFirst_eq_nil_iff (l : List String) : dedupFirst l = [] ↔ l = [] := by
  cases l with
  | nil => simp [dedupFirst, dedupFirstAux]
  | cons x xs =>
    simp only [dedupFirst, dedupFirstAux]
    constructor
    · intro h
      simp at h
    · intro h
      exact absurd h (by simp)

/-- C7: `fetchBatchVideos` maps each raw input through `extractVideoId`,
silently drops `null` resolutions, de-duplicates with set semantics (three
duplicate URLs for one id pass exactly `[id]` to the metadata fetch), and
fails with the no-valid-input error exactly when the de-duplicated set is
empty. -/
theorem fetchBatchVideos_spec
    (net : List String → Except String VideosApiResponse)
    (urls : List String) (apiKey : String) :
    (urls.filterMap extractVideoId = [] →
      fetchBatchVideos net urls apiKey =
        (Except.error
          "No valid YouTube video IDs found. Check your links (Supports: watch, shorts, share links).",
         [])) ∧
    (urls.filterMap extractVideoId ≠ [] →
      fetchBatchVideos net urls apiKey =
        getVideoDetails net (dedupFirst (urls.filterMap extractVideoId)) apiKey) ∧
    (dedupFirst (urls.filterMap extractVideoId)).Nodup ∧
    (∀ a, a ∈ dedupFirst (urls.filterMap extractVideoId) ↔
      a ∈ urls.filterMap extractVideoId) ∧
    (∀ u1 u2 u3 id, urls = [u1, u2, u3] →
      extractVideoId u1 = some id → extractVideoId u2 = some id →
      extractVideoId u3 = some id →
      fetchBatchVideos net urls apiKey = getVideoDetails net [id] apiKey) := by
  refine ⟨?_, ?_, dedupFirstAux_nodup _ _, ?_, ?_⟩
  · intro hnil
    rw [fetchBatchVideos, if_pos (by rw [hnil]; rfl)]
  · intro hne
    rw [fetchBatchVideos,
      if_neg (fun h => hne ((dedupFirst_eq_nil_iff _).mp h))]
  · intro a
    rw [dedupFirst, dedupFirstAux_mem]
    simp
  · rintro u1 u2 u3 id rfl h1 h2 h3
    have hids : [u1, u2, u3].filterMap extractVideoId = [id, id, id] := by
      simp [h1, h2, h3]
    have hdd : dedupFirst [id, id, id] = [id] := by
      simp [dedupFirst, dedupFirstAux]
    rw [fetchBatchVideos, hids, hdd, if_neg (by simp)]

theorem fetchBatchVideos_spec_witness :
    extractVideoId "https://youtu.be/dQw4w9WgXcQ" = some "dQw4w9WgXcQ" ∧
    fetchBatchVideos okEmptyVideosNet
      ["https://youtu.be/dQw4w9WgXcQ", "https://youtu.be/dQw4w9WgXcQ",
       "https://youtu.be/dQw4w9WgXcQ"] "k" =
      getVideoDetails okEmptyVideosNet ["dQw4w9WgXcQ"] "k" := by
  have hx : extractVideoId "https://youtu.be/dQw4w9WgXcQ" = some "dQw4w9WgXcQ" := by decide
  exact ⟨hx, (fetchBatchVideos_spec okEmptyVideosNet _ "k").2.2.2.2 _ _ _ _ rfl hx hx hx⟩

/-! ## C10: `resolveChannelId` -/

theorem strHasPrefix_at_ne_empty {s : String} (h : strHasPrefix "@" s = true) : s ≠ "" := by
  intro hs
  subst hs
  simp [strHasPrefix, listHasPfx] at h

/-- C10 counterexample: the claim states the handle fallback order is
`@`-segment, then `channel/<id>` segment, then final path segment. On
`"youtube.com/channel/UCabc/videos"` the code extracts the final segment
`"videos"`, not the `channel`-following segment `"UCabc"`: the search is
issued for `"videos"`, so the claimed priority is false. -/
theorem resolveChannelId_priority_cex :
    extractHandle "youtube.com/channel/UCabc/videos" = "videos" ∧
    ("videos" : String) ≠ "UCabc" ∧
    resolveChannelId (fun h => Except.ok (some ["ch-for-" ++ h]))
      "youtube.com/channel/UCabc/videos" "k" = Except.ok "ch-for-videos" := by
  refine ⟨by decide, by decide, by rfl⟩

/-- C10 (amended): `resolveChannelId` returns the trimmed input unchanged
whenever it matches the canonical channel-ID shape (prefix `UC`, length 24);
otherwise it extracts a handle from a URL preferring an `@`-prefixed path
segment, then the final path segment, and only when the final segment is
empty falling back to the segment following a `channel` segment; a non-URL
input is its own handle. It fails with the invalid-input error exactly when
the extracted handle is empty, fails with the not-found error when the
channel search returns no items (or a missing item list), and otherwise
returns the first match's channel identifier. -/
theorem resolveChannelId_spec (chSearch : String → Except String (Option (List String)))
    (input : String) (apiKey : String) :
    (strHasPrefix "UC" (jsTrim input) = true → (jsTrim input).length = 24 →
      resolveChannelId chSearch input apiKey = Except.ok (jsTrim input)) ∧
    (¬(strHasPrefix "UC" (jsTrim input) = true ∧ (jsTrim input).length = 24) →
      (extractHandle (jsTrim input) = "" →
        resolveChannelId chSearch input apiKey = Except.error "Invalid channel URL or handle") ∧
      (∀ hdl, extractHandle (jsTrim input) = hdl → hdl ≠ "" →
        (chSearch hdl = Except.ok none ∨ chSearch hdl = Except.ok (some []) →
          resolveChannelId chSearch input apiKey =
            Except.error ("Channel not found for handle: " ++ hdl)) ∧
        (∀ cid rest, chSearch hdl = Except.ok (some (cid :: rest)) →
          resolveChannelId chSearch input apiKey = Except.ok cid))) ∧
    (strIncludes (jsTrim input) "youtube.com/" = true →
      (∀ hseg, (jsSplit (jsTrim input) '/').find? (fun p => strHasPrefix "@" p) = some hseg →
        extractHandle (jsTrim input) = hseg) ∧
      ((jsSplit (jsTrim input) '/').find? (fun p => strHasPrefix "@" p) = none →
        ((jsSplit (jsTrim input) '/').getLastD "" ≠ "" →
          extractHandle (jsTrim input) = (jsSplit (jsTrim input) '/').getLastD "") ∧
        ((jsSplit (jsTrim input) '/').getLastD "" = "" →
          (jsSplit (jsTrim input) '/').contains "channel" = true →
          extractHandle (jsTrim input) =
            (((jsSplit (jsTrim input) '/').get?
              ((jsSplit (jsTrim input) '/').indexOf "channel" + 1)).getD "")))) ∧
    (strIncludes (jsTrim input) "youtube.com/" = false →
      extractHandle (jsTrim input) = jsTrim input) := by
  refine ⟨?_, ?_, ?_, ?_⟩
  · intro h1 h2
    rw [resolveChannelId, if_pos ⟨h1, h2⟩]
  · intro hnot
    rw [resolveChannelId, if_neg hnot]
    constructor
    · intro hh
      rw [if_pos hh]
    · intro hdl hhdl hne
      rw [hhdl, if_neg hne]
      constructor
      · rintro (hs | hs) <;> rw [hs]
      · intro cid rest hs
        rw [hs]
  · intro hurl
    constructor
    · intro hseg hfind
      have hat : strHasPrefix "@" hseg = true := List.find?_some hfind
      have hne : hseg ≠ "" := strHasPrefix_at_ne_empty hat
      have hbase : handleBase (jsSplit (jsTrim input) '/') = hseg := by
        rw [handleBase, hfind]
      rw [extractHandle, if_pos hurl, extractHandleParts, hbase,
        if_neg (by simp [hne])]
    · intro hfind
      have hbase : handleBase (jsSplit (jsTrim input) '/') =
          (jsSplit (jsTrim input) '/').getLastD "" := by
        rw [handleBase, hfind]
      constructor
      · intro hlast
        rw [extractHandle, if_pos hurl, extractHandleParts, hbase,
          if_neg (fun hc => hlast hc.1)]
      · intro hlast hch
        rw [extractHandle, if_pos hurl, extractHandleParts,
          if_pos ⟨by rw [hbase, hlast], hch⟩]
  · intro hurl
    rw [extractHandle, if_neg (by simp [hurl])]

theorem resolveChannelId_spec_witness :
    strHasPrefix "UC" (jsTrim "UCabcdefghijklmnopqrstuv") = true ∧
    (jsTrim "UCabcdefghijklmnopqrstuv").length = 24 ∧
    resolveChannelId (fun _ => Except.ok (some ["x"])) "UCabcdefghijklmnopqrstuv" "k" =
      Except.ok (jsTrim "UCabcdefghijklmnopqrstuv") := by
  exact ⟨by decide, by decide,
    (resolveChannelId_spec (fun _ => Except.ok (some ["x"]))
      "UCabcdefghijklmnopqrstuv" "k").1 (by decide) (by decide)⟩

/-! ## C8: `fetchChannelVideos` -/

/-- C8: `fetchChannelVideos` computes the search width as
`min(50, max(limit*3, 20))`, fetches details for all candidates, filters by
parsed duration (`short` keeps exactly duration ≤ 60s, `video` keeps
duration > 60s, `any` keeps all), and truncates to the first `limit`
records; hence every successful result has at most `limit` records, and with
`contentType = short` every returned record's parsed duration is ≤ 60. -/
theorem fetchChannelVideos_spec (net : ChannelNet) (channelInput : String)
    (limit : Nat) (videoType : VideoType) (apiKey : String) :
    (∀ vs, (fetchChannelVideos net channelInput limit videoType apiKey).result =
        Except.ok vs →
      vs.length ≤ limit ∧
      (videoType = VideoType.short →
        ∀ v ∈ vs, parseDurationToSeconds v.duration ≤ 60) ∧
      (videoType = VideoType.video →
        ∀ v ∈ vs, 60 < parseDurationToSeconds v.duration) ∧
      (∀ v ∈ vs, videoTypeFilter videoType v = true)) ∧
    (∀ cid w, (fetchChannelVideos net channelInput limit videoType apiKey).searchReq =
        some (cid, w) → w = min 50 (max (limit * 3) 20)) := by
  have hmain : ∀ vs,
      (fetchChannelVideos net channelInput limit videoType apiKey).result =
        Except.ok vs →
      vs = [] ∨ ∃ detailed : List VideoData,
        vs = (detailed.filter (videoTypeFilter videoType)).take limit := by
    intro vs hvs
    rw [fetchChannelVideos] at hvs
    rcases hres : resolveChannelId net.chSearch channelInput apiKey with e | channelId <;>
      rw [hres] at hvs
    · simp at hvs
    · rcases hsr : net.search channelId (min 50 (max (limit * 3) 20)) with e | searchData <;>
        simp only [hsr] at hvs
      · simp at hvs
      · rcases herr : searchData.error with _ | msg <;> simp only [herr] at hvs
        · rcases hitems : searchData.items with _ | items <;> simp only [hitems] at hvs
          · simp at hvs
            left
            first
            | exact hvs
            | exact hvs.symm
          · rcases items with _ | ⟨v, ids⟩ <;> simp only at hvs
            · simp at hvs
              left
              first
              | exact hvs
              | exact hvs.symm
            · rcases hd : (getVideoDetails net.videos (v :: ids) apiKey).1 with e | detailed <;>
                simp only [hd] at hvs
              · simp at hvs
              · simp at hvs
                right
                refine ⟨detailed, ?_⟩
                first
                | exact hvs
                | exact hvs.symm
        · simp at hvs
  have hsearch : ∀ cid w,
      (fetchChannelVideos net channelInput limit videoType apiKey).searchReq =
        some (cid, w) → w = min 50 (max (limit * 3) 20) := by
    intro cid w hw
    rw [fetchChannelVideos] at hw
    rcases hres : resolveChannelId net.chSearch channelInput apiKey with e | channelId <;>
      rw [hres] at hw
    · simp at hw
    · rcases hsr : net.search channelId (min 50 (max (limit * 3) 20)) with e | searchData <;>
        simp only [hsr] at hw
      · simp at hw
        omega
      · rcases herr : searchData.error with _ | msg <;> simp only [herr] at hw
        · rcases hitems : searchData.items with _ | items <;> simp only [hitems] at hw
          · simp at hw
            omega
          · rcases items with _ | ⟨v, ids⟩ <;> simp only at hw
            · simp at hw
              omega
            · rcases hd : (getVideoDetails net.videos (v :: ids) apiKey).1 with e | detailed <;>
                simp only [hd] at hw
              · simp at hw
                omega
              · simp at hw
                omega
        · simp at hw
          omega
  refine ⟨?_, hsearch⟩
  intro vs hvs
  rcases hmain vs hvs with rfl | ⟨detailed, rfl⟩
  · exact ⟨Nat.zero_le _, fun _ v hv => absurd hv (List.not_mem_nil v),
      fun _ v hv => absurd hv (List.not_mem_nil v),
      fun v hv => absurd hv (List.not_mem_nil v)⟩
  · have hfilt : ∀ v ∈ (detailed.filter (videoTypeFilter videoType)).take limit,
        videoTypeFilter videoType v = true := by
      intro v hv
      exact (List.mem_filter.mp (List.take_subset _ _ hv)).2
    refine ⟨?_, ?_, ?_, hfilt⟩
    · rw [List.length_take]
      exact min_le_left _ _
    · rintro rfl v hv
      have := hfilt v hv
      simpa [videoTypeFilter] using this
    · rintro rfl v hv
      have := hfilt v hv
      simpa [videoTypeFilter] using this

theorem fetchChannelVideos_spec_witness :
    (fetchChannelVideos c8Net "UCabcdefghijklmnopqrstuv" 5 VideoType.short "k").result =
      Except.ok [] ∧
    ([] : List VideoData).length ≤ 5 ∧
    (∀ v ∈ ([] : List VideoData), parseDurationToSeconds v.duration ≤ 60) ∧
    (fetchChannelVideos c8Net "UCabcdefghijklmnopqrstuv" 5 VideoType.short "k").searchReq =
      some ("UCabcdefghijklmnopqrstuv", 20) ∧
    (20 : Nat) = min 50 (max (5 * 3) 20) := by
  have h := fetchChannelVideos_spec c8Net "UCabcdefghijklmnopqrstuv" 5 VideoType.short "k"
  have h1 := h.1 [] (by rfl)
  have h2 := h.2 "UCabcdefghijklmnopqrstuv" 20 (by rfl)
  exact ⟨by rfl, h1.1, h1.2.1 rfl, by rfl, h2⟩

theorem assignScore_eq_spec (now : ℚ) (dateMs : String → ℚ) (v : VideoData) :
    assignScore now dateMs v = { v with viralityScore := some (specViralityScore now dateMs v) } := by
  unfold assignScore specViralityScore
  simp only
  congr 2
  norm_num
  ring_nf

theorem scoreLE_trans (a b c : VideoData) :
    scoreLE a b = true → scoreLE b c = true → scoreLE a c = true := by
  simp only [scoreLE, decide_eq_true_eq]
  intro h1 h2
  exact le_trans h2 h1

theorem scoreLE_total (a b : VideoData) : (scoreLE a b || scoreLE b a) = true := by
  simp only [scoreLE]
  rcases le_total (scoreD a) (scoreD b) with h | h <;> simp [h]

/-- C5: in analysis mode every record's virality score equals
`(viewCount + likeCount*5 + commentCount*10) / max(1, hours since publishedAt)`
(counters parsed from text with default 0), and the records are sorted
descending by this score with a stable sort: the output equals the
enumerated input sorted by score descending with the input position as
tie-break, so exact ties keep their input order. -/
theorem analyzeVideos_spec (now : ℚ) (dateMs : String → ℚ) (videos : List VideoData) :
    (analyzeVideos now dateMs videos).Perm
      (videos.map (fun v => { v with viralityScore := some (specViralityScore now dateMs v) })) ∧
    List.Pairwise (fun a b => scoreD b ≤ scoreD a) (analyzeVideos now dateMs videos) ∧
    analyzeVideos now dateMs videos =
      (((videos.map (fun v =>
          { v with viralityScore := some (specViralityScore now dateMs v) })).enum.mergeSort
        (fun p q => if scoreD p.2 = scoreD q.2 then decide (p.1 ≤ q.1)
          else decide (scoreD q.2 ≤ scoreD p.2))).map (fun p => p.2)) := by
  have hmap : videos.map (assignScore now dateMs) =
      videos.map (fun v => { v with viralityScore := some (specViralityScore now dateMs v) }) := by
    apply List.map_congr_left
    intro v _
    exact assignScore_eq_spec now dateMs v
  have hanalyze : analyzeVideos now dateMs videos =
      (videos.map (fun v =>
        { v with viralityScore := some (specViralityScore now dateMs v) })).mergeSort scoreLE := by
    rw [analyzeVideos, hmap]
    rfl
  refine ⟨?_, ?_, ?_⟩
  · rw [hanalyze]
    exact List.mergeSort_perm _ _
  · rw [hanalyze]
    have := @List.sorted_mergeSort VideoData scoreLE
      (fun a b c => scoreLE_trans a b c) (fun a b => scoreLE_total a b)
      (videos.map (fun v => { v with viralityScore := some (specViralityScore now dateMs v) }))
    refine this.imp ?_
    intro a b h
    simpa [scoreLE] using h
  · rw [hanalyze, ← List.mergeSort_enum]
    have hle : List.enumLE scoreLE =
        (fun p q : Nat × VideoData => if scoreD p.2 = scoreD q.2 then decide (p.1 ≤ q.1)
          else decide (scoreD q.2 ≤ scoreD p.2)) := by
      funext p q
      rw [List.enumLE]
      simp only [scoreLE]
      rcases eq_or_ne (scoreD p.2) (scoreD q.2) with heq | hne
      · simp [heq]
      · rcases le_or_lt (scoreD q.2) (scoreD p.2) with hle | hlt
        · have : ¬ scoreD p.2 ≤ scoreD q.2 := fun hc => hne (le_antisymm hc hle)
          simp [hle, this, hne]
        · have h1 : ¬ scoreD q.2 ≤ scoreD p.2 := not_le.mpr hlt
          have h2 : scoreD p.2 ≤ scoreD q.2 := le_of_lt hlt
          simp [h1, h2, hne]
    rw [hle]

theorem jFieldIsStr_ne {j : JValue} {k a b : String}
    (h : jFieldIsStr j k a = true) (hab : a ≠ b) : jFieldIsStr j k b = false := by
  unfold jFieldIsStr at h ⊢
  cases hf : jField j k with
  | none => rw [hf] at h
  | some v =>
    cases v with
    | str s =>
      rw [hf] at h
      have hs : s = a := of_decide_eq_true h
      subst hs
      exact decide_eq_false hab
    | null => rw [hf] at h
    | bool x => rw [hf] at h
    | num x => rw [hf] at h
    | arr x => rw [hf] at h
    | obj x => rw [hf] at h

theorem exceptOkBind {ε α β : Type} (a : α) (f : α → Except ε β) :
    (Except.ok (ε := ε) a >>= f) = f a := rfl

theorem pollAux_step (poll : Nat → Except String HttpResponse) (fuel attempts : Nat)
    (h : pollContinues (poll attempts)) :
    pollSupadataJobAux poll (fuel + 1) attempts = pollSupadataJobAux poll fuel (attempts + 1) := by
  obtain ⟨resp, j, hr, hj, hc, hf⟩ := h
  rw [pollSupadataJobAux, hr]
  simp only [exceptOkBind, hj, hc, hf, Bool.false_eq_true, if_false]

theorem pollAux_timeout (poll : Nat → Except String HttpResponse) :
    ∀ fuel attempts,
      (∀ i, attempts ≤ i → i < attempts + fuel → pollContinues (poll i)) →
      pollSupadataJobAux poll fuel attempts =
        Except.error "Supadata transcription timed out." := by
  intro fuel
  induction fuel with
  | zero => intro attempts _; rfl
  | succ fuel ih =>
    intro attempts h
    rw [pollAux_step poll fuel attempts (h attempts (le_refl _) (by omega))]
    exact ih (attempts + 1) (fun i h1 h2 => h i (by omega) (by omega))

theorem pollAux_congr (poll poll' : Nat → Except String HttpResponse) :
    ∀ fuel attempts,
      (∀ i, attempts ≤ i → i < attempts + fuel → poll i = poll' i) →
      pollSupadataJobAux poll fuel attempts = pollSupadataJobAux poll' fuel attempts := by
  intro fuel
  induction fuel with
  | zero => intro attempts _; rfl
  | succ fuel ih =>
    intro attempts h
    rw [pollSupadataJobAux, pollSupadataJobAux,
      h attempts (le_refl _) (by omega)]
    rcases poll' attempts with e | resp
    · rfl
    · simp only [exceptOkBind]
      rcases safeJsonFetch resp "Supadata Poll" with e | j
      · rfl
      · simp only [exceptOkBind]
        by_cases hc : jFieldIsStr j "status" "completed" = true
        · simp [hc]
        · by_cases hf : jFieldIsStr j "status" "failed" = true
          · simp [hc, hf]
          · simp only [eq_false_of_ne_true hc, eq_false_of_ne_true hf, Bool.false_eq_true,
              if_false]
            exact ih (attempts + 1) (fun i h1 h2 => h i (by omega) (by omega))

theorem pollAux_completed (poll : Nat → Except String HttpResponse) :
    ∀ fuel attempts k, attempts ≤ k → k < attempts + fuel →
      (∀ i, attempts ≤ i → i < k → pollContinues (poll i)) →
      ∀ resp j, poll k = Except.ok resp →
        safeJsonFetch resp "Supadata Poll" = Except.ok j →
        jFieldIsStr j "status" "completed" = true →
        pollSupadataJobAux poll fuel attempts =
          Except.ok (normalizeTranscriptText (jFieldD j "content")) := by
  intro fuel
  induction fuel with
  | zero => intro attempts k h1 h2; omega
  | succ fuel ih =>
    intro attempts k h1 h2 hcont resp j hr hj hc
    rcases eq_or_lt_of_le h1 with rfl | hlt
    · rw [pollSupadataJobAux, hr]
      simp only [exceptOkBind, hj, hc, if_true]
      rfl
    · rw [pollAux_step poll fuel attempts (hcont attempts (le_refl _) hlt)]
      exact ih (attempts + 1) k hlt (by omega)
        (fun i hi1 hi2 => hcont i (by omega) hi2) resp j hr hj hc

theorem pollAux_failed (poll : Nat → Except String HttpResponse) :
    ∀ fuel attempts k, attempts ≤ k → k < attempts + fuel →
      (∀ i, attempts ≤ i → i < k → pollContinues (poll i)) →
      ∀ resp j, poll k = Except.ok resp →
        safeJsonFetch resp "Supadata Poll" = Except.ok j →
        jFieldIsStr j "status" "failed" = true →
        pollSupadataJobAux poll fuel attempts =
          Except.error (jsErrMessage (jTruthyField j "error")
            "Supadata transcription job failed.") := by
  intro fuel
  induction fuel with
  | zero => intro attempts k h1 h2; omega
  | succ fuel ih =>
    intro attempts k h1 h2 hcont resp j hr hj hf
    have hc : jFieldIsStr j "status" "completed" = false :=
      jFieldIsStr_ne hf (by decide)
    rcases eq_or_lt_of_le h1 with rfl | hlt
    · rw [pollSupadataJobAux, hr]
      simp only [exceptOkBind, hj, hc, hf, Bool.false_eq_true, if_false, if_true]
    · rw [pollAux_step poll fuel attempts (hcont attempts (le_refl _) hlt)]
      exact ih (attempts + 1) k hlt (by omega)
        (fun i hi1 hi2 => hcont i (by omega) hi2) resp j hr hj hf

/-- C2: the poll loop performs at most 30 polls (the result depends only on
the first 30 responses) at the fixed 2-second interval constant; a poll
reporting `completed` resolves immediately to the normalized content, one
reporting `failed` fails with the job's reported error, any other status
keeps polling, and exhausting the 30-attempt budget fails with the timeout
error, which through the router becomes an `"Error:"`-prefixed string
mentioning the timeout. -/
theorem pollSupadataJob_spec (poll poll' : Nat → Except String HttpResponse)
    (net : TranscriptNet) (videoId : String) (apiKey : Option String) :
    (maxAttempts = 30 ∧ pollIntervalMs = 2000) ∧
    ((∀ i, i < 30 → poll i = poll' i) → pollSupadataJob poll = pollSupadataJob poll') ∧
    ((∀ i, i < 30 → pollContinues (poll i)) →
      pollSupadataJob poll = Except.error "Supadata transcription timed out.") ∧
    (∀ k, k < 30 → (∀ i, i < k → pollContinues (poll i)) →
      ∀ resp j, poll k = Except.ok resp →
        safeJsonFetch resp "Supadata Poll" = Except.ok j →
        jFieldIsStr j "status" "completed" = true →
        pollSupadataJob poll = Except.ok (normalizeTranscriptText (jFieldD j "content"))) ∧
    (∀ k, k < 30 → (∀ i, i < k → pollContinues (poll i)) →
      ∀ resp j, poll k = Except.ok resp →
        safeJsonFetch resp "Supadata Poll" = Except.ok j →
        jFieldIsStr j "status" "failed" = true →
        pollSupadataJob poll = Except.error (jsErrMessage (jTruthyField j "error")
          "Supadata transcription job failed.")) ∧
    (∀ resp0 j0, net.supa.initial = Except.ok resp0 → resp0.status = 202 →
      safeJsonFetch resp0 "Supadata (Async)" = Except.ok j0 →
      jTruthy (jFieldD j0 "jobId") = true →
      jsFalsyKey apiKey = false →
      (∀ i, i < 30 → pollContinues (net.supa.poll i)) →
      fetchTranscript videoId "supadata" apiKey net =
        "Error: Supadata transcription timed out." ∧
      strHasPrefix "Error:" (fetchTranscript videoId "supadata" apiKey net) = true ∧
      strIncludes (fetchTranscript videoId "supadata" apiKey net) "timed out" = true) := by
  refine ⟨⟨rfl, rfl⟩, ?_, ?_, ?_, ?_, ?_⟩
  · intro h
    exact pollAux_congr poll poll' 30 0 (fun i h1 h2 => h i (by omega))
  · intro h
    exact pollAux_timeout poll 30 0 (fun i h1 h2 => h i (by omega))
  · intro k hk hcont resp j hr hj hc
    exact pollAux_completed poll 30 0 k (by omega) (by omega)
      (fun i h1 h2 => hcont i h2) resp j hr hj hc
  · intro k hk hcont resp j hr hj hf
    exact pollAux_failed poll 30 0 k (by omega) (by omega)
      (fun i h1 h2 => hcont i h2) resp j hr hj hf
  · intro resp0 j0 hinit hstatus hjson hjob hkey hcont
    have hpoll : pollSupadataJob net.supa.poll =
        Except.error "Supadata transcription timed out." :=
      pollAux_timeout net.supa.poll 30 0 (fun i h1 h2 => hcont i (by omega))
    have hsupa : fetchTranscriptSupadata net.supa =
        Except.error "Supadata transcription timed out." := by
      rw [fetchTranscriptSupadata, hinit]
      simp only [exceptOkBind, hstatus, if_pos rfl, hjson, hjob]
      simpa using hpoll
    have hres : fetchTranscript videoId "supadata" apiKey net =
        "Error: Supadata transcription timed out." := by
      rw [fetchTranscript]
      simp only [if_neg (by decide : ¬("supadata" : String) = "rapid-api"), if_pos rfl,
        hkey, Bool.false_eq_true, if_false, hsupa]
      rfl
    refine ⟨hres, ?_, ?_⟩
    · rw [hres]
      decide
    · rw [hres]
      decide

theorem pollSupadataJob_spec_witness :
    fetchTranscript "vid" "supadata" (some "key") c2Net =
      "Error: Supadata transcription timed out." ∧
    strHasPrefix "Error:" (fetchTranscript "vid" "supadata" (some "key") c2Net) = true ∧
    strIncludes (fetchTranscript "vid" "supadata" (some "key") c2Net) "timed out" = true := by
  have h := (pollSupadataJob_spec (fun _ => Except.ok queuedResp)
    (fun _ => Except.ok queuedResp) c2Net "vid" (some "key")).2.2.2.2.2
  exact h supaInit202 (JValue.obj [("jobId", JValue.str "j1")]) (by rfl) (by rfl) (by rfl)
    (by rfl) (by rfl)
    (fun i _ => ⟨queuedResp, JValue.obj [("status", JValue.str "queued")],
      by rfl, by rfl, by rfl, by rfl⟩)

/-- C1 counterexample: with the rapid provider and a credential present, a
success-shaped response (HTTP 200, valid JSON) carrying no transcript
resolves to the plain string `"Unexpected response format from RapidAPI"`:
a transcript-absent failure that begins with none of the three markers, so
the claimed failure-marker classification is false. -/
theorem fetchTranscript_marker_cex :
    fetchTranscript "dQw4w9WgXcQ" "rapid-api" (some "key") c1Net =
      "Unexpected response format from RapidAPI" ∧
    strHasPrefix "Error:" "Unexpected response format from RapidAPI" = false ∧
    strHasPrefix "API Error:" "Unexpected response format from RapidAPI" = false ∧
    strHasPrefix "Request Failed:" "Unexpected response format from RapidAPI" = false := by
  exact ⟨by rfl, by decide, by decide, by decide⟩

/-- C1 (amended): the router never throws — it always resolves to a plain
string. A missing/empty credential, an unknown provider selector, and every
error thrown inside a provider implementation (transport failure, HTTP error
status, invalid JSON, missing job id, job failure, poll timeout) resolve to
`"Error: " ++ message`, which begins with the `"Error:"` marker. A provider
success is returned verbatim, so it carries no marker guarantee: the rapid
path's unexpected-format case yields a marker-free plain string, and remote
content that itself starts with a marker is indistinguishable from failure. -/
theorem fetchTranscript_spec (videoId provider : String) (apiKey : Option String)
    (net : TranscriptNet) :
    (provider = "rapid-api" → jsFalsyKey apiKey = true →
      fetchTranscript videoId provider apiKey net = "Error: RapidAPI Key is required.") ∧
    (provider = "supadata" → jsFalsyKey apiKey = true →
      fetchTranscript videoId provider apiKey net = "Error: Supadata API Key is required.") ∧
    (provider ≠ "rapid-api" → provider ≠ "supadata" →
      fetchTranscript videoId provider apiKey net =
        "Error: Invalid Transcription Provider selected.") ∧
    (∀ e, provider = "rapid-api" → jsFalsyKey apiKey = false →
      fetchTranscriptRapid net.rapid = Except.error e →
      fetchTranscript videoId provider apiKey net = "Error: " ++ e) ∧
    (∀ s, provider = "rapid-api" → jsFalsyKey apiKey = false →
      fetchTranscriptRapid net.rapid = Except.ok s →
      fetchTranscript videoId provider apiKey net = s) ∧
    (∀ e, provider = "supadata" → jsFalsyKey apiKey = false →
      fetchTranscriptSupadata net.supa = Except.error e →
      fetchTranscript videoId provider apiKey net = "Error: " ++ e) ∧
    (∀ s, provider = "supadata" → jsFalsyKey apiKey = false →
      fetchTranscriptSupadata net.supa = Except.ok s →
      fetchTranscript videoId provider apiKey net = s) ∧
    (∀ e, strHasPrefix "Error:" ("Error: " ++ e) = true) := by
  refine ⟨?_, ?_, ?_, ?_, ?_, ?_, ?_, strHasPrefix_error_marker⟩
  · rintro rfl hkey
    rw [fetchTranscript, if_pos rfl, if_pos hkey]
    rfl
  · rintro rfl hkey
    rw [fetchTranscript, if_neg (by decide), if_pos rfl, if_pos hkey]
    rfl
  · intro h1 h2
    rw [fetchTranscript, if_neg h1, if_neg h2]
    rfl
  · rintro e rfl hkey herr
    rw [fetchTranscript, if_pos rfl, if_neg (by simp [hkey]), herr]
  · rintro s rfl hkey hok
    rw [fetchTranscript, if_pos rfl, if_neg (by simp [hkey]), hok]
  · rintro e rfl hkey herr
    rw [fetchTranscript, if_neg (by decide), if_pos rfl, if_neg (by simp [hkey]), herr]
  · rintro s rfl hkey hok
    rw [fetchTranscript, if_neg (by decide), if_pos rfl, if_neg (by simp [hkey]), hok]

theorem fetchTranscript_spec_witness :
    fetchTranscript "vid" "bogus" none c2Net =
      "Error: Invalid Transcription Provider selected." ∧
    strHasPrefix "Error:" ("Error: " ++ "Invalid Transcription Provider selected.") = true := by
  have h := fetchTranscript_spec "vid" "bogus" none c2Net
  exact ⟨h.2.2.1 (by decide) (by decide), h.2.2.2.2.2.2.2 _⟩

theorem mapIdx_outcome_shift (c1 c2 : Nat → String → Bool) (fetchRes : Nat → String)
    (i : Nat) (l : List VideoData) :
    l.mapIdx (fun k v => itemOutcome c1 c2 fetchRes (i + (k + 1)) v) =
    l.mapIdx (fun k v => itemOutcome c1 c2 fetchRes ((i + 1) + k) v) := by
  congr 1
  funext k v
  congr 1
  omega

theorem progress_range_shift (i total n : Nat) :
    (List.range n).map (fun k => progressValue ((i + 1) + k + 1) total) =
    (List.range n).map (fun k => progressValue (i + (k + 1) + 1) total) := by
  apply List.map_congr_left
  intro k _
  congr 1
  omega

theorem progress_cons (i total n : Nat) :
    progressValue (i + 1) total :: (List.range n).map
      (fun k => progressValue ((i + 1) + k + 1) total) =
    (List.range (n + 1)).map (fun k => progressValue (i + k + 1) total) := by
  simp only [List.range_succ_eq_map, List.map_cons, List.map_map, List.cons.injEq]
  constructor
  · trivial
  · apply List.map_congr_left
    intro k _
    simp only [Function.comp]
    congr 2
    omega

set_option maxHeartbeats 3200000 in
theorem transcriptPhaseAux_spec (ceiling : Nat) (c1 c2 : Nat → String → Bool)
    (fetchRes : Nat → String) (total : Nat) :
    ∀ (pending : List VideoData) (i : Nat) (acc : List VideoData) (count : Nat),
      (transcriptPhaseAux ceiling c1 c2 fetchRes total i acc pending count).videos =
        acc.reverse ++ pending.mapIdx (fun k v => itemOutcome c1 c2 fetchRes (i + k) v) ∧
      (transcriptPhaseAux ceiling c1 c2 fetchRes total i acc pending count).fetched =
        fetchedIndices c1 i pending ∧
      (transcriptPhaseAux ceiling c1 c2 fetchRes total i acc pending count).published.length =
        pending.length ∧
      (transcriptPhaseAux ceiling c1 c2 fetchRes total i acc pending count).progressEvents =
        (List.range pending.length).map (fun k => progressValue (i + k + 1) total) ∧
      (transcriptPhaseAux ceiling c1 c2 fetchRes total i acc pending count).usageWrites =
        buildWrites ceiling count (successIndices c1 c2 fetchRes i pending) ∧
      (transcriptPhaseAux ceiling c1 c2 fetchRes total i acc pending count).count =
        count + (successIndices c1 c2 fetchRes i pending).length := by
  intro pending
  induction pending with
  | nil =>
    intro i acc count
    refine ⟨by simp [transcriptPhaseAux], rfl, rfl, rfl, rfl, by rfl⟩
  | cons v rest ih =>
    intro i acc count
    simp only [transcriptPhaseAux]
    by_cases hc1 : c1 i v.id = true
    · rw [if_pos hc1]
      obtain ⟨hv, hf, hp, hpr, hu, hcnt⟩ :=
        ih (i + 1) ({ v with transcript := "Cancelled" } :: acc) count
      refine ⟨?_, ?_, ?_, ?_, ?_, ?_⟩
      · simp only [hv, List.mapIdx_cons, List.reverse_cons, List.append_assoc,
          List.cons_append, List.nil_append]
        rw [mapIdx_outcome_shift]
        congr 2
        rw [itemOutcome, Nat.add_zero, if_pos hc1]
      · simp only [hf]
        rw [fetchedIndices, if_pos hc1]
      · simp only [List.length_cons, hp]
      · simp only [hpr, List.length_cons]
        exact progress_cons i total rest.length
      · simp only [hu]
        rw [successIndices, if_pos hc1]
      · simp only [hcnt]
        rw [successIndices, if_pos hc1]
    · rw [if_neg hc1]
      by_cases hc2 : c2 i v.id = true
      · rw [if_pos hc2]
        obtain ⟨hv, hf, hp, hpr, hu, hcnt⟩ :=
          ih (i + 1) ({ v with transcript := "Cancelled" } :: acc) count
        refine ⟨?_, ?_, ?_, ?_, ?_, ?_⟩
        · simp only [hv, List.mapIdx_cons, List.reverse_cons, List.append_assoc,
            List.cons_append, List.nil_append]
          rw [mapIdx_outcome_shift]
          congr 2
          rw [itemOutcome, Nat.add_zero, if_neg hc1, if_pos hc2]
        · simp only [hf]
          rw [fetchedIndices, if_neg hc1]
        · simp only [List.length_cons, hp]
        · simp only [hpr, List.length_cons]
          exact progress_cons i total rest.length
        · simp only [hu]
          rw [successIndices, if_neg hc1, if_pos hc2]
        · simp only [hcnt]
          rw [successIndices, if_neg hc1, if_pos hc2]
      · rw [if_neg hc2]
        by_cases herr : isTranscriptError (fetchRes i) = true
        · rw [if_pos herr]
          obtain ⟨hv, hf, hp, hpr, hu, hcnt⟩ :=
            ih (i + 1) ({ v with transcript := fetchRes i } :: acc) count
          refine ⟨?_, ?_, ?_, ?_, ?_, ?_⟩
          · simp only [hv, List.mapIdx_cons, List.reverse_cons, List.append_assoc,
              List.cons_append, List.nil_append]
            rw [mapIdx_outcome_shift]
            congr 2
            rw [itemOutcome, Nat.add_zero, if_neg hc1, if_neg hc2]
          · simp only [hf]
            rw [fetchedIndices, if_neg hc1]
          · simp only [List.length_cons, hp]
          · simp only [hpr, List.length_cons]
            exact progress_cons i total rest.length
          · simp only [hu]
            rw [successIndices, if_neg hc1, if_neg hc2, if_pos herr]
          · simp only [hcnt]
            rw [successIndices, if_neg hc1, if_neg hc2, if_pos herr]
        · rw [if_neg herr]
          obtain ⟨hv, hf, hp, hpr, hu, hcnt⟩ :=
            ih (i + 1) ({ v with transcript := fetchRes i } :: acc) (count + 1)
          refine ⟨?_, ?_, ?_, ?_, ?_, ?_⟩
          · simp only [hv, List.mapIdx_cons, List.reverse_cons, List.append_assoc,
              List.cons_append, List.nil_append]
            rw [mapIdx_outcome_shift]
            congr 2
            rw [itemOutcome, Nat.add_zero, if_neg hc1, if_neg hc2]
          · simp only [hf]
            rw [fetchedIndices, if_neg hc1]
          · simp only [List.length_cons, hp]
          · simp only [hpr, List.length_cons]
            exact progress_cons i total rest.length
          · simp only [hu]
            rw [successIndices, if_neg hc1, if_neg hc2, if_neg herr]
            rfl
          · simp only [hcnt]
            rw [successIndices, if_neg hc1, if_neg hc2, if_neg herr]
            simp only [List.length_cons]
            omega

theorem published_snapshot_eq (c1 c2 : Nat → String → Bool) (fetchRes : Nat → String)
    (i : Nat) (acc : List VideoData) (v : VideoData) (rest : List VideoData) (k : Nat) :
    (itemOutcome c1 c2 fetchRes i v :: acc).reverse ++
      (rest.take (k + 1)).mapIdx (fun j w => itemOutcome c1 c2 fetchRes ((i + 1) + j) w) ++
      rest.drop (k + 1) =
    acc.reverse ++
      ((v :: rest).take (k + 2)).mapIdx (fun j w => itemOutcome c1 c2 fetchRes (i + j) w) ++
      (v :: rest).drop (k + 2) := by
  rw [List.take_succ_cons, List.drop_succ_cons, List.mapIdx_cons, List.reverse_cons]
  rw [mapIdx_outcome_shift c1 c2 fetchRes i (rest.take (k + 1))]
  simp only [List.append_assoc, List.cons_append, List.nil_append, Nat.add_zero]

set_option maxHeartbeats 3200000 in
theorem transcriptPhaseAux_published (ceiling : Nat) (c1 c2 : Nat → String → Bool)
    (fetchRes : Nat → String) (total : Nat) :
    ∀ (pending : List VideoData) (i : Nat) (acc : List VideoData) (count : Nat) (k : Nat),
      k < pending.length →
      (transcriptPhaseAux ceiling c1 c2 fetchRes total i acc pending count).published[k]? =
        some (acc.reverse ++ (pending.take (k + 1)).mapIdx
          (fun j w => itemOutcome c1 c2 fetchRes (i + j) w) ++ pending.drop (k + 1)) := by
  intro pending
  induction pending with
  | nil =>
    intro i acc count k hk
    simp at hk
  | cons v rest ih =>
    intro i acc count k hk
    simp only [transcriptPhaseAux]
    by_cases hc1 : c1 i v.id = true
    · rw [if_pos hc1]
      cases k with
      | zero =>
        simp only [List.getElem?_cons_zero, List.take_succ_cons, List.take_zero,
          List.drop_succ_cons, List.drop_zero, List.mapIdx_cons, List.mapIdx_nil,
          Nat.add_zero]
        rw [itemOutcome, if_pos hc1]
        simp
      | succ k =>
        rw [List.getElem?_cons_succ, ih (i + 1) _ count k (by simpa using hk)]
        rw [show { v with transcript := "Cancelled" } = itemOutcome c1 c2 fetchRes i v by
          rw [itemOutcome, if_pos hc1]]
        rw [published_snapshot_eq]
    · rw [if_neg hc1]
      by_cases hc2 : c2 i v.id = true
      · rw [if_pos hc2]
        cases k with
        | zero =>
          simp only [List.getElem?_cons_zero, List.take_succ_cons, List.take_zero,
            List.drop_succ_cons, List.drop_zero, List.mapIdx_cons, List.mapIdx_nil,
            Nat.add_zero]
          rw [itemOutcome, if_neg hc1, if_pos hc2]
          simp
        | succ k =>
          rw [List.getElem?_cons_succ, ih (i + 1) _ count k (by simpa using hk)]
          rw [show { v with transcript := "Cancelled" } = itemOutcome c1 c2 fetchRes i v by
            rw [itemOutcome, if_neg hc1, if_pos hc2]]
          rw [published_snapshot_eq]
      · rw [if_neg hc2]
        by_cases herr : isTranscriptError (fetchRes i) = true
        · rw [if_pos herr]
          cases k with
          | zero =>
            simp only [List.getElem?_cons_zero, List.take_succ_cons, List.take_zero,
              List.drop_succ_cons, List.drop_zero, List.mapIdx_cons, List.mapIdx_nil,
              Nat.add_zero]
            rw [itemOutcome, if_neg hc1, if_neg hc2]
            simp
          | succ k =>
            rw [List.getElem?_cons_succ, ih (i + 1) _ count k (by simpa using hk)]
            rw [show { v with transcript := fetchRes i } = itemOutcome c1 c2 fetchRes i v by
              rw [itemOutcome, if_neg hc1, if_neg hc2]]
            rw [published_snapshot_eq]
        · rw [if_neg herr]
          cases k with
          | zero =>
            simp only [List.getElem?_cons_zero, List.take_succ_cons, List.take_zero,
              List.drop_succ_cons, List.drop_zero, List.mapIdx_cons, List.mapIdx_nil,
              Nat.add_zero]
            rw [itemOutcome, if_neg hc1, if_neg hc2]
            simp
          | succ k =>
            rw [List.getElem?_cons_succ, ih (i + 1) _ (count + 1) k (by simpa using hk)]
            rw [show { v with transcript := fetchRes i } = itemOutcome c1 c2 fetchRes i v by
              rw [itemOutcome, if_neg hc1, if_neg hc2]]
            rw [published_snapshot_eq]

theorem mem_fetchedIndices (c1 : Nat → String → Bool) :
    ∀ (pending : List VideoData) (i x : Nat), x ∈ fetchedIndices c1 i pending →
      ∃ k v, pending[k]? = some v ∧ x = i + k ∧ c1 x v.id = false := by
  intro pending
  induction pending with
  | nil =>
    intro i x hx
    simp [fetchedIndices] at hx
  | cons v rest ih =>
    intro i x hx
    rw [fetchedIndices] at hx
    by_cases hc : c1 i v.id = true
    · rw [if_pos hc] at hx
      obtain ⟨k, w, h1, h2, h3⟩ := ih (i + 1) x hx
      exact ⟨k + 1, w, by simpa using h1, by omega, h3⟩
    · rw [if_neg hc] at hx
      rcases List.mem_cons.mp hx with rfl | hx
      · exact ⟨0, v, by simp, by omega, eq_false_of_ne_true hc⟩
      · obtain ⟨k, w, h1, h2, h3⟩ := ih (i + 1) x hx
        exact ⟨k + 1, w, by simpa using h1, by omega, h3⟩

theorem buildWrites_fst (ceiling : Nat) :
    ∀ (js : List Nat) (count : Nat), (buildWrites ceiling count js).map Prod.fst = js := by
  intro js
  induction js with
  | nil => intro count; rfl
  | cons j js ih => intro count; simp [buildWrites, ih]

theorem buildWrites_snd (ceiling : Nat) :
    ∀ (js : List Nat) (count : Nat), (buildWrites ceiling count js).map Prod.snd =
      (List.range js.length).map (fun k => min ceiling (count + k + 1)) := by
  intro js
  induction js with
  | nil => intro count; rfl
  | cons j js ih =>
    intro count
    simp only [buildWrites, List.map_cons, List.length_cons, List.range_succ_eq_map,
      List.map_map, ih, List.cons.injEq]
    refine ⟨by simp, ?_⟩
    apply List.map_congr_left
    intro k _
    simp only [Function.comp]
    congr 1
    omega

theorem buildWrites_le (ceiling : Nat) :
    ∀ (js : List Nat) (count : Nat) (p : Nat × Nat),
      p ∈ buildWrites ceiling count js → p.2 ≤ ceiling := by
  intro js
  induction js with
  | nil =>
    intro count p hp
    simp [buildWrites] at hp
  | cons j js ih =>
    intro count p hp
    rw [buildWrites] at hp
    rcases List.mem_cons.mp hp with rfl | hp
    · exact min_le_left _ _
    · exact ih (count + 1) p hp

/-- C3: in the transcript phase, an item whose identifier is in the cancelled
set at the start of its iteration gets no router call (its index is not in
the fetch log), its record's transcript is the exact sentinel `"Cancelled"`
(both in the final sequence and in the snapshot published at that
iteration), and the loop still publishes one snapshot and one progress
update per item, including this one, before continuing. -/
theorem transcriptPhase_cancel_spec (provider : Provider) (c1 c2 : Nat → String → Bool)
    (fetchRes : Nat → String) (videos : List VideoData) (usage0 : Nat)
    (i : Nat) (v : VideoData) (hv : videos[i]? = some v) (hc : c1 i v.id = true) :
    i ∉ (transcriptPhase provider c1 c2 fetchRes videos usage0).fetched ∧
    (transcriptPhase provider c1 c2 fetchRes videos usage0).videos[i]? =
      some { v with transcript := "Cancelled" } ∧
    (∃ snap, (transcriptPhase provider c1 c2 fetchRes videos usage0).published[i]? =
        some snap ∧ snap[i]? = some { v with transcript := "Cancelled" }) ∧
    (transcriptPhase provider c1 c2 fetchRes videos usage0).published.length =
      videos.length ∧
    (transcriptPhase provider c1 c2 fetchRes videos usage0).progressEvents.length =
      videos.length ∧
    (transcriptPhase provider c1 c2 fetchRes videos usage0).progressEvents[i]? =
      some (progressValue (i + 1) videos.length) := by
  have hlen : i < videos.length := (List.getElem?_eq_some.mp hv).1
  obtain ⟨hvd, hf, hp, hpr, hu, hcnt⟩ :=
    transcriptPhaseAux_spec (ledgerCeiling provider) c1 c2 fetchRes videos.length
      videos 0 [] usage0
  have hout : itemOutcome c1 c2 fetchRes i v = { v with transcript := "Cancelled" } := by
    rw [itemOutcome, if_pos hc]
  refine ⟨?_, ?_, ?_, ?_, ?_, ?_⟩
  · intro hmem
    rw [transcriptPhase, hf] at hmem
    obtain ⟨k, w, h1, h2, h3⟩ := mem_fetchedIndices c1 videos 0 i hmem
    have hki : k = i := by omega
    subst hki
    rw [hv] at h1
    cases h1
    rw [h3] at hc
    cases hc
  · rw [transcriptPhase, hvd]
    simp only [List.reverse_nil, List.nil_append, List.getElem?_mapIdx, hv, Nat.zero_add]
    simp [hout]
  · refine ⟨(videos.take (i + 1)).mapIdx (fun j w => itemOutcome c1 c2 fetchRes j w) ++
      videos.drop (i + 1), ?_, ?_⟩
    · rw [transcriptPhase]
      have := transcriptPhaseAux_published (ledgerCeiling provider) c1 c2 fetchRes
        videos.length videos 0 [] usage0 i hlen
      simpa using this
    · have hlentake : ((videos.take (i + 1)).mapIdx
          (fun j w => itemOutcome c1 c2 fetchRes j w)).length = i + 1 := by
        simp [List.length_mapIdx, List.length_take]
        omega
      rw [List.getElem?_append_left (by omega), List.getElem?_mapIdx,
        List.getElem?_take_of_lt (by omega), hv]
      simp [hout]
  · rw [transcriptPhase, hp]
  · rw [transcriptPhase, hpr]
    simp
  · rw [transcriptPhase, hpr, List.getElem?_map, List.getElem?_range hlen]
    simp

/-- C4 counterexample: a transcript fetch is issued (index 0 is in the fetch
log) and its result is not classified as an error, yet the usage counter is
not incremented (no ledger write, local count unchanged), because the item
was cancelled while the fetch was in flight. This refutes the claimed "if
and only if". -/
theorem transcriptPhase_usage_cex :
    c4CexRun.fetched = [0] ∧
    isTranscriptError "a transcript" = false ∧
    c4CexRun.usageWrites = [] ∧
    c4CexRun.count = 0 := by
  exact ⟨by rfl, by decide, by rfl, by rfl⟩

/-- C4 (amended): the ledger writes of a transcript phase are exactly one
write per fetch whose result is kept and classified as a success — not
cancelled at either checkpoint and not error-prefixed; an in-flight
cancellation discards a successful result without incrementing. The k-th
write stores `min(ceiling, usage0 + k + 1)` (ceiling 100 for supadata, 20
for rapid-api), so no stored value exceeds the ceiling and a write at the
ceiling leaves every later stored value at the ceiling. -/
theorem transcriptPhase_usage_spec (provider : Provider) (c1 c2 : Nat → String → Bool)
    (fetchRes : Nat → String) (videos : List VideoData) (usage0 : Nat) :
    (transcriptPhase provider c1 c2 fetchRes videos usage0).usageWrites =
      buildWrites (ledgerCeiling provider) usage0
        (successIndices c1 c2 fetchRes 0 videos) ∧
    (transcriptPhase provider c1 c2 fetchRes videos usage0).usageWrites.map Prod.fst =
      successIndices c1 c2 fetchRes 0 videos ∧
    (transcriptPhase provider c1 c2 fetchRes videos usage0).usageWrites.map Prod.snd =
      (List.range (successIndices c1 c2 fetchRes 0 videos).length).map
        (fun k => min (ledgerCeiling provider) (usage0 + k + 1)) ∧
    (∀ p ∈ (transcriptPhase provider c1 c2 fetchRes videos usage0).usageWrites,
      p.2 ≤ ledgerCeiling provider) ∧
    (∀ k p q,
      (transcriptPhase provider c1 c2 fetchRes videos usage0).usageWrites[k]? = some p →
      (transcriptPhase provider c1 c2 fetchRes videos usage0).usageWrites[k + 1]? = some q →
      p.2 = ledgerCeiling provider → q.2 = ledgerCeiling provider) ∧
    ledgerCeiling Provider.supadata = 100 ∧ ledgerCeiling Provider.rapidApi = 20 := by
  obtain ⟨hvd, hf, hp, hpr, hu, hcnt⟩ :=
    transcriptPhaseAux_spec (ledgerCeiling provider) c1 c2 fetchRes videos.length
      videos 0 [] usage0
  have hwrites : (transcriptPhase provider c1 c2 fetchRes videos usage0).usageWrites =
      buildWrites (ledgerCeiling provider) usage0
        (successIndices c1 c2 fetchRes 0 videos) := by
    rw [transcriptPhase, hu]
  refine ⟨hwrites, ?_, ?_, ?_, ?_, rfl, rfl⟩
  · rw [hwrites, buildWrites_fst]
  · rw [hwrites, buildWrites_snd]
  · intro p hp
    rw [hwrites] at hp
    exact buildWrites_le _ _ _ p hp
  · intro k p q hpk hqk hpc
    have hsnd := buildWrites_snd (ledgerCeiling provider)
      (successIndices c1 c2 fetchRes 0 videos) usage0
    have hpk' : ((transcriptPhase provider c1 c2 fetchRes videos usage0).usageWrites.map
        Prod.snd)[k]? = some p.2 := by
      rw [List.getElem?_map, hpk]
      rfl
    have hqk' : ((transcriptPhase provider c1 c2 fetchRes videos usage0).usageWrites.map
        Prod.snd)[k + 1]? = some q.2 := by
      rw [List.getElem?_map, hqk]
      rfl
    rw [hwrites, hsnd, List.getElem?_map] at hpk' hqk'
    set n := (successIndices c1 c2 fetchRes 0 videos).length with hn
    have hklt : k < n := by
      by_contra hnk
      rw [List.getElem?_eq_none (by simp; omega)] at hpk'
      cases hpk'
    have hklt2 : k + 1 < n := by
      by_contra hnk
      rw [List.getElem?_eq_none (by simp; omega)] at hqk'
      cases hqk'
    rw [List.getElem?_range hklt] at hpk'
    rw [List.getElem?_range hklt2] at hqk'
    have hp2 : min (ledgerCeiling provider) (usage0 + k + 1) = p.2 :=
      Option.some.inj hpk'
    have hq2 : min (ledgerCeiling provider) (usage0 + (k + 1) + 1) = q.2 :=
      Option.some.inj hqk'
    rcases Nat.le_total (ledgerCeiling provider) (usage0 + k + 1) with hle | hle
    · rw [← hq2, min_eq_left (by omega)]
    · have hpk2 : usage0 + k + 1 = p.2 := by
        rw [← hp2, min_eq_right hle]
      rw [← hq2, min_eq_left (by omega)]

theorem transcriptPhase_cancel_spec_witness :
    0 ∉ c3Run.fetched ∧
    c3Run.videos[0]? = some { cexVideo with transcript := "Cancelled" } ∧
    c3Run.published.length = 1 ∧
    c3Run.progressEvents.length = 1 := by
  have h := transcriptPhase_cancel_spec Provider.supadata (fun _ id => id = "vidA")
    (fun _ _ => false) (fun _ => "text") [cexVideo] 0 0 cexVideo (by rfl) (by decide)
  exact ⟨h.1, h.2.1, h.2.2.2.1, h.2.2.2.2.1⟩

theorem transcriptPhase_usage_spec_witness :
    c4WitRun.usageWrites = [(0, 6)] ∧ ((0, 6) : Nat × Nat).2 ≤ 20 := by
  have h := transcriptPhase_usage_spec Provider.rapidApi (fun _ _ => false)
    (fun _ _ => false) (fun _ => "great video text") [cexVideo] 5
  exact ⟨by rfl, h.2.2.2.1 (0, 6) (by decide)⟩

/-! ## C9: `extractVideoId` -/

theorem matchLit_self_append (p rest : List Char) : matchLit p (p ++ rest) = some rest := by
  induction p with
  | nil => rfl
  | cons c cs ih => simpa [matchLit] using ih

theorem takeToken_append (tok : List Char) :
    ∀ rest : List Char, (∀ c ∈ tok, isWordChar c = true) →
      takeToken tok.length (tok ++ rest) = some (tok, rest) := by
  induction tok with
  | nil => intro rest _; rfl
  | cons c cs ih =>
    intro rest hw
    rw [List.length_cons, List.cons_append, takeToken,
      if_pos (hw c (List.mem_cons_self _ _)), ih rest (fun d hd => hw d (List.mem_cons_of_mem _ hd))]

theorem token11_append {tok : List Char} (rest : List Char) (hlen : tok.length = 11)
    (hw : ∀ c ∈ tok, isWordChar c = true) :
    token11 (tok ++ rest) = some (String.mk tok) := by
  rw [token11, ← hlen, takeToken_append tok rest hw]

theorem matchLit_mem {p : List Char} :
    ∀ {l r : List Char}, matchLit p l = some r →
      (∀ c ∈ p, c ∈ l) ∧ (∀ c ∈ r, c ∈ l) := by
  induction p with
  | nil =>
    intro l r h
    rw [matchLit] at h
    cases h
    exact ⟨fun c hc => absurd hc (List.not_mem_nil c), fun c hc => hc⟩
  | cons p ps ih =>
    intro l r h
    cases l with
    | nil => cases h
    | cons c cs =>
      rw [matchLit] at h
      by_cases hpc : p = c
      · rw [if_pos hpc] at h
        obtain ⟨h1, h2⟩ := ih h
        constructor
        · intro d hd
          rcases List.mem_cons.mp hd with rfl | hd
          · exact hpc ▸ List.mem_cons_self _ _
          · exact List.mem_cons_of_mem _ (h1 d hd)
        · intro d hd
          exact List.mem_cons_of_mem _ (h2 d hd)
      · rw [if_neg hpc] at h
        cases h

theorem matchCore_none {l : List Char} (h : ('.' : Char) ∉ l) : matchCore l = none := by
  rw [matchCore]
  cases h1 : matchLit "youtube.com/".data l with
  | some r =>
    exact absurd ((matchLit_mem h1).1 '.' (by decide)) h
  | none =>
    cases h2 : matchLit "youtu.be/".data l with
    | some r =>
      exact absurd ((matchLit_mem h2).1 '.' (by decide)) h
    | none => rfl

theorem matchSub_none {l : List Char} (h : ('.' : Char) ∉ l) : matchSub l = none := by
  rw [matchSub]
  have hplain := matchCore_none h
  cases h1 : matchLit "www.".data l with
  | some r =>
    exact absurd ((matchLit_mem h1).1 '.' (by decide)) h
  | none =>
    cases h2 : matchLit "m.".data l with
    | some r =>
      exact absurd ((matchLit_mem h2).1 '.' (by decide)) h
    | none => simp [hplain, Option.orElse]

theorem matchAt_none {l : List Char} (h : ('.' : Char) ∉ l) : matchAt l = none := by
  rw [matchAt]
  have hplain := matchSub_none h
  cases h1 : matchLit "https://".data l with
  | some r =>
    have hr : ('.' : Char) ∉ r := fun hc => h ((matchLit_mem h1).2 '.' hc)
    simp [matchSub_none hr, hplain, Option.orElse]
    cases h2 : matchLit "http://".data l with
    | some r2 =>
      have hr2 : ('.' : Char) ∉ r2 := fun hc => h ((matchLit_mem h2).2 '.' hc)
      simp [matchSub_none hr2]
    | none => simp
  | none =>
    cases h2 : matchLit "http://".data l with
    | some r2 =>
      have hr2 : ('.' : Char) ∉ r2 := fun hc => h ((matchLit_mem h2).2 '.' hc)
      simp [matchSub_none hr2, hplain, Option.orElse]
    | none => simp [hplain, Option.orElse]

theorem scanUrl_none {l : List Char} (h : ('.' : Char) ∉ l) : scanUrl l = none := by
  induction l with
  | nil => rfl
  | cons c cs ih =>
    rw [scanUrl, matchAt_none h]
    exact ih (fun hc => h (List.mem_cons_of_mem _ hc))

theorem scanLegacy_none {l : List Char} (hq : ('?' : Char) ∉ l) (ha : ('&' : Char) ∉ l) :
    scanLegacy l = none := by
  induction l with
  | nil => rfl
  | cons c cs ih =>
    rw [scanLegacy]
    have hc : ¬(c = '?' ∨ c = '&') := by
      rintro (rfl | rfl)
      · exact hq (List.mem_cons_self _ _)
      · exact ha (List.mem_cons_self _ _)
    rw [if_neg hc]
    exact ih (fun h => hq (List.mem_cons_of_mem _ h)) (fun h => ha (List.mem_cons_of_mem _ h))

theorem word_no_ws {c : Char} (h : isWordChar c = true) : isJsWs c = false := by
  cases hws : isJsWs c with
  | false => rfl
  | true =>
    simp only [isJsWs, decide_eq_true_eq] at hws
    rcases hws with rfl | rfl | rfl | rfl | rfl | rfl <;> exact absurd h (by decide)

theorem dropWhile_eq_self_of {p : Char → Bool} {l : List Char} (h : ∀ c ∈ l, p c = false) :
    l.dropWhile p = l := by
  cases l with
  | nil => rfl
  | cons c cs => simp [List.dropWhile_cons, h c (List.mem_cons_self _ _)]

theorem trimCharsEnd_eq_self {l : List Char} (h : ∀ c ∈ l, isJsWs c = false) :
    trimCharsEnd l = l := by
  rw [trimCharsEnd, dropWhile_eq_self_of (fun c hc => h c (List.mem_reverse.mp hc)),
    List.reverse_reverse]

theorem jsTrim_eq_self {s : String} (h : ∀ c ∈ s.data, isJsWs c = false) : jsTrim s = s := by
  rw [jsTrim, dropWhile_eq_self_of h, trimCharsEnd_eq_self h]

theorem trimCharsEnd_subset {l : List Char} {c : Char} (h : c ∈ trimCharsEnd l) : c ∈ l := by
  rw [trimCharsEnd, List.mem_reverse] at h
  exact List.mem_reverse.mp ((List.dropWhile_sublist _).subset h)

theorem jsTrim_subset {s : String} {c : Char} (h : c ∈ (jsTrim s).data) : c ∈ s.data := by
  have h1 : c ∈ trimCharsEnd (s.data.dropWhile isJsWs) := h
  exact (List.dropWhile_sublist _).subset (trimCharsEnd_subset h1)

theorem scanUrl_of_matchAt {l : List Char} {res : String} (h : matchAt l = some res) :
    scanUrl l = some res := by
  cases l with
  | nil =>
    have h2 : (none : Option String) = some res := h
    exact Option.noConfusion h2
  | cons c cs =>
    rw [scanUrl, h]
    rfl

theorem matchAt_https {S : List Char} {res : String} (h : matchSub S = some res) :
    matchAt ("https://".data ++ S) = some res := by
  rw [matchAt, matchLit_self_append]
  simp [h, Option.orElse]

theorem matchSub_www {S : List Char} {res : String} (h : matchCore S = some res) :
    matchSub ("www.".data ++ S) = some res := by
  rw [matchSub, matchLit_self_append]
  simp [h, Option.orElse]

theorem matchSub_plain {S : List Char} {res : String}
    (h1 : matchLit "www.".data S = none) (h2 : matchLit "m.".data S = none)
    (h : matchCore S = some res) : matchSub S = some res := by
  rw [matchSub, h1, h2]
  simp [h, Option.orElse]

theorem matchCore_yt {S : List Char} {res : String} (h : matchYtPath S = some res) :
    matchCore ("youtube.com/".data ++ S) = some res := by
  rw [matchCore, matchLit_self_append]
  simp [h]

theorem matchCore_ytbe {S : List Char} {res : String} (h : token11 S = some res) :
    matchCore ("youtu.be/".data ++ S) = some res := by
  have h1 : matchLit "youtube.com/".data ("youtu.be/".data ++ S) = none := rfl
  rw [matchCore, h1, matchLit_self_append]
  simp [h]

theorem matchYtPath_shorts {tok : List Char} (rest : List Char) (hlen : tok.length = 11)
    (hw : ∀ c ∈ tok, isWordChar c = true) :
    matchYtPath ("shorts/".data ++ (tok ++ rest)) = some (String.mk tok) := by
  rw [matchYtPath, matchLit_self_append]
  simp [token11_append rest hlen hw]

theorem matchYtPath_watch {tok : List Char} (rest : List Char) (hlen : tok.length = 11)
    (hw : ∀ c ∈ tok, isWordChar c = true) :
    matchYtPath ("watch?v=".data ++ (tok ++ rest)) = some (String.mk tok) := by
  have h1 : matchLit "shorts/".data ("watch?v=".data ++ (tok ++ rest)) = none := rfl
  rw [matchYtPath, h1, matchLit_self_append]
  simp [token11_append rest hlen hw]

theorem matchYtPath_embed {tok : List Char} (rest : List Char) (hlen : tok.length = 11)
    (hw : ∀ c ∈ tok, isWordChar c = true) :
    matchYtPath ("embed/".data ++ (tok ++ rest)) = some (String.mk tok) := by
  have h1 : matchLit "shorts/".data ("embed/".data ++ (tok ++ rest)) = none := rfl
  have h2 : matchLit "watch?v=".data ("embed/".data ++ (tok ++ rest)) = none := rfl
  rw [matchYtPath, h1, h2, matchLit_self_append]
  simp [token11_append rest hlen hw]

theorem matchYtPath_v {tok : List Char} (rest : List Char) (hlen : tok.length = 11)
    (hw : ∀ c ∈ tok, isWordChar c = true) :
    matchYtPath ("v/".data ++ (tok ++ rest)) = some (String.mk tok) := by
  have h1 : matchLit "shorts/".data ("v/".data ++ (tok ++ rest)) = none := rfl
  have h2 : matchLit "watch?v=".data ("v/".data ++ (tok ++ rest)) = none := rfl
  have h3 : matchLit "embed/".data ("v/".data ++ (tok ++ rest)) = none := rfl
  rw [matchYtPath, h1, h2, h3, matchLit_self_append]
  simp [token11_append rest hlen hw]

theorem matchYtPath_live {tok : List Char} (rest : List Char) (hlen : tok.length = 11)
    (hw : ∀ c ∈ tok, isWordChar c = true) :
    matchYtPath ("live/".data ++ (tok ++ rest)) = some (String.mk tok) := by
  have h1 : matchLit "shorts/".data ("live/".data ++ (tok ++ rest)) = none := rfl
  have h2 : matchLit "watch?v=".data ("live/".data ++ (tok ++ rest)) = none := rfl
  have h3 : matchLit "embed/".data ("live/".data ++ (tok ++ rest)) = none := rfl
  have h4 : matchLit "v/".data ("live/".data ++ (tok ++ rest)) = none := rfl
  rw [matchYtPath, h1, h2, h3, h4, matchLit_self_append]
  simp [token11_append rest hlen hw]

theorem scanLegacy_qv (tok rest : List Char) (hlen : tok.length = 11)
    (hw : ∀ c ∈ tok, isWordChar c = true) :
    scanLegacy ('?' :: ("v=".data ++ (tok ++ rest))) = some (String.mk tok) := by
  rw [scanLegacy, if_pos (Or.inl rfl), matchLit_self_append]
  simp [token11_append rest hlen hw, Option.orElse]

theorem scanLegacy_skip {c : Char} {L : List Char} (hc : ¬(c = '?' ∨ c = '&')) :
    scanLegacy (c :: L) = scanLegacy L := by
  rw [scanLegacy, if_neg hc]
  rfl

theorem extractVideoId_of_scan {s : String}
    (hnws : ∀ c ∈ s.data, isJsWs c = false) {res : String}
    (h : scanUrl s.data = some res) : extractVideoId s = some res := by
  have hne : s ≠ "" := by
    intro he
    rw [he] at h
    have h2 : (none : Option String) = some res := h
    exact Option.noConfusion h2
  rw [extractVideoId, if_neg hne, jsTrim_eq_self hnws]
  simp [h]

theorem extractVideoId_bare {s : String} (hb : isBareToken s.data = true)
    (hnws : ∀ c ∈ s.data, isJsWs c = false) : extractVideoId s = some s := by
  have hne : s ≠ "" := by
    intro he
    rw [he] at hb
    exact absurd hb (by decide)
  obtain ⟨hlen, hall⟩ := of_decide_eq_true hb
  have hnd : ('.' : Char) ∉ s.data := by
    intro hc
    exact absurd (List.all_eq_true.mp hall _ hc) (by decide)
  rw [extractVideoId, if_neg hne, jsTrim_eq_self hnws]
  simp [scanUrl_none hnd, hb]

theorem extractVideoId_none {s : String}
    (hnd : ('.' : Char) ∉ s.data) (hq : ('?' : Char) ∉ s.data) (ha : ('&' : Char) ∉ s.data)
    (hb : isBareToken (jsTrim s).data = false) : extractVideoId s = none := by
  by_cases he : s = ""
  · rw [extractVideoId, if_pos he]
  · rw [extractVideoId, if_neg he]
    simp [scanUrl_none (fun hc => hnd (jsTrim_subset hc)), hb,
      scanLegacy_none (fun hc => hq (jsTrim_subset hc)) (fun hc => ha (jsTrim_subset hc))]

theorem noWs_three {pre : String} (hpre : ∀ c ∈ pre.data, isJsWs c = false)
    {tok sfx : List Char} (hw : ∀ c ∈ tok, isWordChar c = true)
    (hsfx : ∀ c ∈ sfx, isJsWs c = false) :
    ∀ c ∈ (pre ++ String.mk tok ++ String.mk sfx).data, isJsWs c = false := by
  intro c hc
  rw [String.data_append, String.data_append] at hc
  rcases List.mem_append.mp hc with hc | hc
  · rcases List.mem_append.mp hc with hc | hc
    · exact hpre c hc
    · exact word_no_ws (hw c hc)
  · exact hsfx c hc

/-- C9: `extractVideoId` never throws (it is a total function into `Option`).
It recognizes, in priority order: (1) full URL forms
`youtube.com/(watch?v=|shorts/|embed/|v/|live/)` and `youtu.be/` (with optional
protocol and `www.`/`m.` subdomain), returning the 11-character `[\w-]` token;
(2) a bare 11-character token, returned unchanged; (3) the legacy `[?&]v=`
query form. The priority conjunct shows a `youtu.be/` path token beating a
later `?v=` token in the same URL. On any other input (here: no dot, no `?`,
no `&`, and the trimmed input is not a bare token) it returns `none`. -/
theorem extractVideoId_spec (tok sfx : List Char) (hlen : tok.length = 11)
    (hw : ∀ c ∈ tok, isWordChar c = true) (hsfx : ∀ c ∈ sfx, isJsWs c = false) :
    (extractVideoId ("https://www.youtube.com/watch?v=" ++ String.mk tok ++ String.mk sfx)
        = some (String.mk tok)
      ∧ extractVideoId ("https://www.youtube.com/shorts/" ++ String.mk tok ++ String.mk sfx)
        = some (String.mk tok)
      ∧ extractVideoId ("https://www.youtube.com/embed/" ++ String.mk tok ++ String.mk sfx)
        = some (String.mk tok)
      ∧ extractVideoId ("https://www.youtube.com/v/" ++ String.mk tok ++ String.mk sfx)
        = some (String.mk tok)
      ∧ extractVideoId ("https://www.youtube.com/live/" ++ String.mk tok ++ String.mk sfx)
        = some (String.mk tok)
      ∧ extractVideoId ("https://youtu.be/" ++ String.mk tok ++ String.mk sfx)
        = some (String.mk tok))
    ∧ extractVideoId (String.mk tok) = some (String.mk tok)
    ∧ extractVideoId ("x?v=" ++ String.mk tok) = some (String.mk tok)
    ∧ (∀ tok2 : List Char, tok2.length = 11 → (∀ c ∈ tok2, isWordChar c = true) →
        extractVideoId ("https://youtu.be/" ++ String.mk tok ++ "?v=" ++ String.mk tok2)
          = some (String.mk tok))
    ∧ (∀ s : String, ('.' : Char) ∉ s.data → ('?' : Char) ∉ s.data → ('&' : Char) ∉ s.data →
        isBareToken (jsTrim s).data = false → extractVideoId s = none) := by
  refine ⟨⟨?_, ?_, ?_, ?_, ?_, ?_⟩, ?_, ?_, ?_, ?_⟩
  · have hd : ("https://www.youtube.com/watch?v=" ++ String.mk tok ++ String.mk sfx).data
        = "https://".data ++ ("www.".data ++ ("youtube.com/".data
          ++ ("watch?v=".data ++ (tok ++ sfx)))) := rfl
    refine extractVideoId_of_scan (noWs_three (by decide) hw hsfx) ?_
    rw [hd]
    exact scanUrl_of_matchAt (matchAt_https (matchSub_www (matchCore_yt
      (matchYtPath_watch sfx hlen hw))))
  · have hd : ("https://www.youtube.com/shorts/" ++ String.mk tok ++ String.mk sfx).data
        = "https://".data ++ ("www.".data ++ ("youtube.com/".data
          ++ ("shorts/".data ++ (tok ++ sfx)))) := rfl
    refine extractVideoId_of_scan (noWs_three (by decide) hw hsfx) ?_
    rw [hd]
    exact scanUrl_of_matchAt (matchAt_https (matchSub_www (matchCore_yt
      (matchYtPath_shorts sfx hlen hw))))
  · have hd : ("https://www.youtube.com/embed/" ++ String.mk tok ++ String.mk sfx).data
        = "https://".data ++ ("www.".data ++ ("youtube.com/".data
          ++ ("embed/".data ++ (tok ++ sfx)))) := rfl
    refine extractVideoId_of_scan (noWs_three (by decide) hw hsfx) ?_
    rw [hd]
    exact scanUrl_of_matchAt (matchAt_https (matchSub_www (matchCore_yt
      (matchYtPath_embed sfx hlen hw))))
  · have hd : ("https://www.youtube.com/v/" ++ String.mk tok ++ String.mk sfx).data
        = "https://".data ++ ("www.".data ++ ("youtube.com/".data
          ++ ("v/".data ++ (tok ++ sfx)))) := rfl
    refine extractVideoId_of_scan (noWs_three (by decide) hw hsfx) ?_
    rw [hd]
    exact scanUrl_of_matchAt (matchAt_https (matchSub_www (matchCore_yt
      (matchYtPath_v sfx hlen hw))))
  · have hd : ("https://www.youtube.com/live/" ++ String.mk tok ++ String.mk sfx).data
        = "https://".data ++ ("www.".data ++ ("youtube.com/".data
          ++ ("live/".data ++ (tok ++ sfx)))) := rfl
    refine extractVideoId_of_scan (noWs_three (by decide) hw hsfx) ?_
    rw [hd]
    exact scanUrl_of_matchAt (matchAt_https (matchSub_www (matchCore_yt
      (matchYtPath_live sfx hlen hw))))
  · have hd : ("https://youtu.be/" ++ String.mk tok ++ String.mk sfx).data
        = "https://".data ++ ("youtu.be/".data ++ (tok ++ sfx)) := rfl
    refine extractVideoId_of_scan (noWs_three (by decide) hw hsfx) ?_
    rw [hd]
    exact scanUrl_of_matchAt (matchAt_https (matchSub_plain rfl rfl (matchCore_ytbe
      (token11_append sfx hlen hw))))
  · have hb : isBareToken (String.mk tok).data = true :=
      decide_eq_true ⟨hlen, List.all_eq_true.mpr (fun c hc => hw c hc)⟩
    exact extractVideoId_bare hb (fun c hc => word_no_ws (hw c hc))
  · have hd : ("x?v=" ++ String.mk tok).data
        = 'x' :: ('?' :: ("v=".data ++ (tok ++ []))) := by
      rw [List.append_nil]
      rfl
    have hne : ("x?v=" ++ String.mk tok) ≠ "" := by
      intro he
      have h0 : ("x?v=" ++ String.mk tok).data = [] := by rw [he]
      rw [hd] at h0
      exact List.noConfusion h0
    have hnws : ∀ c ∈ ("x?v=" ++ String.mk tok).data, isJsWs c = false := by
      intro c hc
      rw [hd] at hc
      rcases List.mem_cons.mp hc with rfl | hc
      · decide
      rcases List.mem_cons.mp hc with rfl | hc
      · decide
      rcases List.mem_append.mp hc with hc | hc
      · exact (by decide : ∀ c ∈ "v=".data, isJsWs c = false) c hc
      rcases List.mem_append.mp hc with hc | hc
      · exact word_no_ws (hw c hc)
      · exact absurd hc (List.not_mem_nil c)
    have hnd : ('.' : Char) ∉ ("x?v=" ++ String.mk tok).data := by
      intro hc
      rw [hd] at hc
      rcases List.mem_cons.mp hc with h0 | hc
      · exact absurd h0 (by decide)
      rcases List.mem_cons.mp hc with h0 | hc
      · exact absurd h0 (by decide)
      rcases List.mem_append.mp hc with hc | hc
      · exact absurd hc (by decide)
      rcases List.mem_append.mp hc with hc | hc
      · exact absurd (hw _ hc) (by decide)
      · exact absurd hc (List.not_mem_nil _)
    have hlen15 : ("x?v=" ++ String.mk tok).data.length = 15 := by
      rw [hd]
      simp [List.length_append, hlen, (rfl : ("v=".data).length = 2)]
    have hbf : isBareToken ("x?v=" ++ String.mk tok).data = false := by
      cases hbb : isBareToken ("x?v=" ++ String.mk tok).data with
      | false => rfl
      | true =>
        obtain ⟨hl, _⟩ := of_decide_eq_true hbb
        rw [hlen15] at hl
        exact absurd hl (by decide)
    have hsl : scanLegacy ("x?v=" ++ String.mk tok).data = some (String.mk tok) := by
      rw [hd, scanLegacy_skip (by decide), scanLegacy_qv tok [] hlen hw]
    have hd2 : ("x?v=" ++ String.mk tok).data = 'x' :: '?' :: 'v' :: '=' :: tok := rfl
    rw [hd2] at hnd hbf hsl
    rw [extractVideoId, if_neg hne, jsTrim_eq_self hnws]
    simp [scanUrl_none hnd, hbf, hsl]
  · intro tok2 hlen2 hw2
    have hsplit : ("https://youtu.be/" ++ String.mk tok ++ "?v=" ++ String.mk tok2).data
        = "https://".data ++ ("youtu.be/".data ++ (tok ++ ("?v=".data ++ tok2))) := by
      have h1 : ("https://youtu.be/" ++ String.mk tok ++ "?v=" ++ String.mk tok2).data
          = (("https://youtu.be/".data ++ tok) ++ "?v=".data) ++ tok2 := rfl
      rw [h1, List.append_assoc, List.append_assoc]
      rfl
    refine extractVideoId_of_scan ?_ ?_
    · intro c hc
      rw [hsplit] at hc
      rcases List.mem_append.mp hc with hc | hc
      · exact (by decide : ∀ c ∈ "https://".data, isJsWs c = false) c hc
      · rcases List.mem_append.mp hc with hc | hc
        · exact (by decide : ∀ c ∈ "youtu.be/".data, isJsWs c = false) c hc
        · rcases List.mem_append.mp hc with hc | hc
          · exact word_no_ws (hw c hc)
          · rcases List.mem_append.mp hc with hc | hc
            · exact (by decide : ∀ c ∈ "?v=".data, isJsWs c = false) c hc
            · exact word_no_ws (hw2 c hc)
    · rw [hsplit]
      exact scanUrl_of_matchAt (matchAt_https (matchSub_plain rfl rfl (matchCore_ytbe
        (token11_append _ hlen hw))))
  · exact fun s h1 h2 h3 h4 => extractVideoId_none h1 h2 h3 h4

/-- Witness for C9 at the canonical watch URL. -/
theorem extractVideoId_spec_witness :
    extractVideoId "https://www.youtube.com/watch?v=dQw4w9WgXcQ" = some "dQw4w9WgXcQ" :=
  (extractVideoId_spec "dQw4w9WgXcQ".data [] (by decide) (by decide) (by decide)).1.1
